import Mathlib

/-!
# Verification development for the Email Verifier platform

A shallow embedding of the verification engine of the repository
(`backend/verifier1.py`, `backend/services/verifier_service.py`,
`backend/settings/settings.py`) together with proofs about it.

External effects (DNS answers, SMTP replies, the Microsoft
`GetCredentialType` API, browser-driven login probes) are modelled as
oracles carried in an `Env` record; mutable module state (rate limiter
tables, result caches, the persisted per-category data files) is threaded
explicitly.  Wall-clock time is a single integer `Env.now`, frozen for the
duration of one call; fallible Python code is modelled with `Except String`
(the message standing for the exception's text).  The per-address history
log is not modelled: no verified property mentions it.
-/

namespace EmailVerifier

/-- Email categories, from the module-level constants of `verifier1.py`. -/
def VALID : String := "valid"

/-- `INVALID = "invalid"`. -/
def INVALID : String := "invalid"

/-- `RISKY = "risky"`. -/
def RISKY : String := "risky"

/-- `CUSTOM = "custom"`. -/
def CUSTOM : String := "custom"

/-- An email address that contains exactly one `@`, split into its local
part and its domain, mirroring Python's `email.split('@')` on the strings
that reach the engine. -/
structure Email where
  localPart : String
  domain : String
deriving DecidableEq, Repr

/-- The rendered address string `local@domain`. -/
def Email.addr (e : Email) : String := e.localPart ++ "@" ++ e.domain

/-- `EmailVerificationResult` of `verifier1.py`: the dataclass with fields
`email`, `category`, `reason`, `provider`, `details`, `timestamp`.
`details` is an association list standing for the optional Python dict
(values kept as opaque strings). -/
structure EmailVerificationResult where
  email : Email
  category : String
  reason : String
  provider : String
  details : Option (List (String × String)) := none
  timestamp : Int := 0
deriving DecidableEq, Repr

/-- Association-list lookup (Python `dict` access / `in`). -/
def lookupAssoc {α : Type} (l : List (String × α)) (k : String) : Option α :=
  match l with
  | [] => none
  | (k', v) :: rest => if k' = k then some v else lookupAssoc rest k

/-- Association-list lookup keyed by `Email` (the caches are keyed by the
address string; `Email` equality coincides with string equality for the
well-formed addresses the engine handles). -/
def lookupEmail {α : Type} (l : List (Email × α)) (k : Email) : Option α :=
  match l with
  | [] => none
  | (k', v) :: rest => if k' = k then some v else lookupEmail rest k

/-- Python `d[k] = v` on a dict: replaces in place when the key exists
(keeping its position in insertion order), appends otherwise. -/
def setAssoc {α : Type} (l : List (String × α)) (k : String) (v : α) :
    List (String × α) :=
  match l with
  | [] => [(k, v)]
  | (k', v') :: rest =>
    if k' = k then (k', v) :: rest else (k', v') :: setAssoc rest k v

/-- `d[k] = v` for `Email`-keyed dicts. -/
def setEmail {α : Type} (l : List (Email × α)) (k : Email) (v : α) :
    List (Email × α) :=
  match l with
  | [] => [(k, v)]
  | (k', v') :: rest =>
    if k' = k then (k', v) :: rest else (k', v') :: setEmail rest k v

/-- `del d[k]` on a dict. -/
def eraseAssoc {α : Type} (l : List (String × α)) (k : String) :
    List (String × α) :=
  match l with
  | [] => []
  | (k', v') :: rest =>
    if k' = k then rest else (k', v') :: eraseAssoc rest k

/-!
## Rate limiter (`verifier1.py`, class `RateLimiter`)

Timestamps are integers (seconds).  `datetime.now()` is the caller-supplied
`now`; `now - timestamp < timedelta(seconds=W)` becomes `now - t < W`.
-/

/-- The `RateLimiter` object: per-domain request history and backoff
deadlines, with its two constructor parameters. -/
structure RateLimiter where
  max_requests : Nat := 10
  time_window : Int := 60
  request_history : List (String × List Int) := []
  backoff_times : List (String × Int) := []
deriving DecidableEq, Repr

/-- The request-history part of `RateLimiter.is_rate_limited`: run after
the backoff branch has not returned.  Inserts an empty history for unseen
domains, garbage-collects entries older than the window, and compares the
surviving count with `max_requests`. -/
def RateLimiter.historyCheck (rl : RateLimiter) (domain : String) (now : Int) :
    Bool × RateLimiter :=
  match lookupAssoc rl.request_history domain with
  | none =>
    (false, { rl with request_history := setAssoc rl.request_history domain [] })
  | some ts =>
    let ts' := ts.filter (fun t => now - t < rl.time_window)
    (decide (rl.max_requests ≤ ts'.length),
     { rl with request_history := setAssoc rl.request_history domain ts' })

/-- `RateLimiter.is_rate_limited`: true while in backoff (deleting expired
backoffs), otherwise true iff the sliding window is saturated.  Mutation of
the tables is returned as the second component. -/
def RateLimiter.is_rate_limited (rl : RateLimiter) (domain : String) (now : Int) :
    Bool × RateLimiter :=
  match lookupAssoc rl.backoff_times domain with
  | some b =>
    if now < b then (true, rl)
    else
      let rl' := { rl with backoff_times := eraseAssoc rl.backoff_times domain }
      rl'.historyCheck domain now
  | none => rl.historyCheck domain now

/-- `RateLimiter.add_request`: append `now` to the domain's history. -/
def RateLimiter.add_request (rl : RateLimiter) (domain : String) (now : Int) :
    RateLimiter :=
  let ts := (lookupAssoc rl.request_history domain).getD []
  { rl with request_history := setAssoc rl.request_history domain (ts ++ [now]) }

/-- `RateLimiter.set_backoff`: backoff until `now + seconds`. -/
def RateLimiter.set_backoff (rl : RateLimiter) (domain : String) (seconds : Int)
    (now : Int) : RateLimiter :=
  { rl with backoff_times := setAssoc rl.backoff_times domain (now + seconds) }

/-- `RateLimiter.get_backoff_time`: remaining whole seconds of backoff,
clamped at 0; 0 when no backoff is set. -/
def RateLimiter.get_backoff_time (rl : RateLimiter) (domain : String) (now : Int) :
    Int :=
  match lookupAssoc rl.backoff_times domain with
  | some b => max 0 (b - now)
  | none => 0

/-!
## Oracles for the outside world

Each probe talks to an external system; the observable answers are
supplied by the `Env` record below.  They are deterministic functions of
their inputs for the duration of one engine call.
-/

/-- Outcome of one SMTP conversation attempt with one MX host
(`verifier1.verify_smtp`, inner `while` loop):
either a completed conversation with the RCPT reply code, a network error
that is retried (`socket.timeout` / `ConnectionRefusedError`), or a
protocol error that skips to the next MX (`socket.error` /
`smtplib.SMTPException`). -/
inductive SmtpReply where
  | code (n : Nat) (msg : String)
  | timeoutErr
  | smtpErr
deriving DecidableEq, Repr

/-- Observable outcome of the Microsoft `GetCredentialType` POST
(`verifier1.verify_microsoft_api`): network failure on every retry, some
other exception (caught, the probe returns no decision), or an HTTP
response with status plus the `IfExistsResult` / `ThrottleStatus` fields
of the JSON body when present. -/
inductive MsApiResponse where
  | netFail
  | exn (msg : String)
  | resp (status : Nat) (ifExists : Option Int) (throttle : Option Int)
deriving DecidableEq, Repr

/-- The four categories `_verify_login` can classify a page into.  The
Python function only ever constructs results with the four module
constants, so the browser oracle is typed with this enumeration. -/
inductive Cat4 where
  | valid | invalid | risky | custom
deriving DecidableEq, Repr

/-- The string constant each `Cat4` stands for. -/
def Cat4.toStr : Cat4 → String
  | .valid => VALID
  | .invalid => INVALID
  | .risky => RISKY
  | .custom => CUSTOM

/-- Observable outcome of one browser login-probe session
(`verifier1._verify_login`): either a classification with its reason
string, or an exception raised while creating the driver, which
propagates out of `_verify_login` (driver creation in `_browser_context`
is outside the function's `try`). -/
inductive BrowserOutcome where
  | outcome (category : Cat4) (reason : String)
  | raise (msg : String)
deriving Repr

/-- The environment of one engine call: settings values read during the
call, the DNS resolver (`get_mx_records` collapses resolver plus
process-wide MX cache into one deterministic oracle), the random local
part drawn for catch-all probes, and the three network oracles.
`smtpReply` is indexed by MX host, rendered address and attempt number. -/
structure Env where
  now : Int := 0
  catch_all_detection : Bool := true
  microsoft_api : Bool := true
  verification_loop_enabled : Bool := true
  browsers : List String := ["chrome"]
  blacklist : List String := []
  skip_domains : List String := []
  mx : String → List String := fun _ => []
  randomLocal : String := "abcdefgh12345678"
  smtpReply : String → String → Nat → SmtpReply := fun _ _ _ => .smtpErr
  msApi : String → MsApiResponse := fun _ => .netFail
  browserProbe : String → String → String → BrowserOutcome := fun _ _ _ => .raise "no driver"

/-!
## Syntactic validation (`verifier1.validate_format`)

The source checks the regex `^[a-zA-Z0-9._%+-]+@[a-zA-Z0-9.-]+\.[a-zA-Z]{2,}$`.
For a string with exactly one `@` (an `Email`), matching is equivalent to:
nonempty local part over the local character class, and the domain
splitting as `D+ "." T` with `D` the domain character class and `T` at
least two letters — `domainMatch` searches for that final split, requiring
at least one domain character before it. -/

/-- Characters of the local-part class `[a-zA-Z0-9._%+-]`. -/
def isLocalChar (c : Char) : Bool :=
  c.isAlphanum || c == '.' || c == '_' || c == '%' || c == '+' || c == '-'

/-- Characters of the domain class `[a-zA-Z0-9.-]`. -/
def isDomainChar (c : Char) : Bool :=
  c.isAlphanum || c == '.' || c == '-'

/-- `\.[a-zA-Z]{2,}$`: at least two characters, all letters. -/
def tldOk (cs : List Char) : Bool :=
  decide (2 ≤ cs.length) && cs.all (·.isAlpha)

/-- Does the remaining domain text split as `D* "." T` — with `seen`
recording whether at least one domain character precedes the current
position (the regex requires `[a-zA-Z0-9.-]+` before the final dot)? -/
def domainMatch : Bool → List Char → Bool
  | _, [] => false
  | seen, c :: rest =>
    (seen && c == '.' && tldOk rest) || (isDomainChar c && domainMatch true rest)

/-- `validate_format`: the regex check of `verifier1.py`. -/
def validate_format (e : Email) : Bool :=
  !e.localPart.toList.isEmpty && e.localPart.toList.all isLocalChar &&
    domainMatch false e.domain.toList

/-!
## Provider identification (`verifier1.identify_provider`)
-/

/-- Python's substring containment `pat in s`. -/
def strContains (s pat : String) : Bool :=
  s.toList.tails.any (fun t => pat.toList.isPrefixOf t)

/-- The known-provider login-URL table (`self.provider_login_urls`),
in source order.  Only the `gmail.com`, `outlook.com` and `live.com`
entries are consulted by name elsewhere; the URLs are opaque strings. -/
def provider_login_urls : List (String × String) :=
  [("gmail.com", "https://accounts.google.com/v3/signin/identifier?checkedDomains=youtube&continue=https%3A%2F%2Faccounts.google.com%2F&ddm=1&flowEntry=ServiceLogin&flowName=GlifWebSignIn&followup=https%3A%2F%2Faccounts.google.com%2F&ifkv=ASSHykqZwmsZ-Y8kMUy1FaZIF_roUjdswunM1zU1MHwMol0ScsWw6Ccfrnl6CF5AGNdJYnPIXWCAag&pstMsg=1&dsh=S-618504277%3A1741397881564214"),
   ("googlemail.com", "https://accounts.google.com/v3/signin/identifier?flowName=GlifWebSignIn"),
   ("outlook.com", "https://login.microsoftonline.com/common/oauth2/v2.0/authorize?scope=service%3A%3Aaccount.microsoft.com%3A%3AMBI_SSL+openid+profile+offline_access&response_type=code&client_id=81feaced-5ddd-41e7-8bef-3e20a2689bb7&redirect_uri=https%3A%2F%2Faccount.microsoft.com%2Fauth%2Fcomplete-signin-oauth&client-request-id=91a4ca34-664d-4f85-b023-b815182d057e&x-client-SKU=MSAL.Desktop&x-client-Ver=4.66.1.0&x-client-OS=Windows+Server+2019+Datacenter&prompt=login&client_info=1&state=H4sIAAAAAAAEAA3OR4KCMAAAwL945QBoKB48gAhGTUKVcpOyUgIIIlnz-t15wWxOkdgndzKKgzSP0sPvj6ylebkaJnlzK-s0zslzEDxJW0UhHvEoa8gondYS2LTTFj8N67QGK0Xnl7SoUWRXezriNbboRIRAH11HDqhyTBouvKsZMdgD_EwXpH2sZhExKJfvafuKxXbvtGmo4JABCBsFdIXfz1A5ReoS5TaufobXzFD27PSPwvn1JjnTMNvUIxAhZIvJMrxonWBPzz_q-cwoGpZMT_dt0HJwoQjGbICKmRvY9fjN_a9X83yN15D0QONFuUsucuoQrfbvd--XVEViWqUbRJXAOukcyRNmjUoyrhYWNEAvdQbMsp2XArl4F9vEzh95s3fGb2Q-Hs2VHQ6bP6JJZGZaAQAA&msaoauth2=true&lc=1036&sso_reload=true"),
   ("hotmail.com", "https://login.microsoftonline.com/common/oauth2/v2.0/authorize?scope=service%3A%3Aaccount.microsoft.com%3A%3AMBI_SSL+openid+profile+offline_access&response_type=code&client_id=81feaced-5ddd-41e7-8bef-3e20a2689bb7&redirect_uri=https%3A%2F%2Faccount.microsoft.com%2Fauth%2Fcomplete-signin-oauth&client-request-id=91a4ca34-664d-4f85-b023-b815182d057e&x-client-SKU=MSAL.Desktop&x-client-Ver=4.66.1.0&x-client-OS=Windows+Server+2019+Datacenter&prompt=login&client_info=1&state=H4sIAAAAAAAEAA3OR4KCMAAAwL945QBoKB48gAhGTUKVcpOyUgIIIlnz-t15wWxOkdgndzKKgzSP0sPvj6ylebkaJnlzK-s0zslzEDxJW0UhHvEoa8gondYS2LTTFj8N67QGK0Xnl7SoUWRXezriNbboRIRAH11HDqhyTBouvKsZMdgD_EwXpH2sZhExKJfvafuKxXbvtGmo4JABCBsFdIXfz1A5ReoS5TaufobXzFD27PSPwvn1JjnTMNvUIxAhZIvJMrxonWBPzz_q-cwoGpZMT_dt0HJwoQjGbICKmRvY9fjN_a9X83yN15D0QONFuUsucuoQrfbvd--XVEViWqUbRJXAOukcyRNmjUoyrhYWNEAvdQbMsp2XArl4F9vEzh95s3fGb2Q-Hs2VHQ6bP6JJZGZaAQAA&msaoauth2=true&lc=1036&sso_reload=true"),
   ("live.com", "https://login.live.com"),
   ("yahoo.com", "https://login.yahoo.com"),
   ("aol.com", "https://login.aol.com"),
   ("protonmail.com", "https://mail.proton.me/login"),
   ("zoho.com", "https://accounts.zoho.com/signin"),
   ("mail.ru", "https://account.mail.ru/login"),
   ("yandex.ru", "https://passport.yandex.ru/auth"),
   ("microsoft.com", "https://login.microsoftonline.com"),
   ("office365.com", "https://login.microsoftonline.com")]

/-- The MX-pattern half of `identify_provider`: the `for mx in mx_records`
loop with its `if/elif` chain; falls through to `("custom", None)`. -/
def identify_provider_mx (domain : String) : List String → String × Option String
  | [] => ("custom", none)
  | mx :: rest =>
    if strContains mx "google" || strContains mx "gmail" then
      if domain = "gmail.com" then ("gmail.com", lookupAssoc provider_login_urls "gmail.com")
      else ("customGoogle", lookupAssoc provider_login_urls "gmail.com")
    else if strContains mx "outlook" || strContains mx "microsoft" || strContains mx "office365" then
      ("outlook.com", lookupAssoc provider_login_urls "outlook.com")
    else if strContains mx "yahoo" then
      ("yahoo.com", lookupAssoc provider_login_urls "yahoo.com")
    else if strContains mx "protonmail" || strContains mx "proton.me" then
      ("protonmail.com", lookupAssoc provider_login_urls "protonmail.com")
    else if strContains mx "zoho" then
      ("zoho.com", lookupAssoc provider_login_urls "zoho.com")
    else if strContains mx "mail.ru" then
      ("mail.ru", lookupAssoc provider_login_urls "mail.ru")
    else if strContains mx "yandex" then
      ("yandex.ru", lookupAssoc provider_login_urls "yandex.ru")
    else identify_provider_mx domain rest

/-- `get_mx_records`: DNS resolution with a process-wide cache; with a
deterministic resolver oracle the cache is transparent. -/
def get_mx_records (env : Env) (domain : String) : List String :=
  env.mx domain

/-- `identify_provider`: the known-provider table first, then MX-record
substring matching. -/
def identify_provider (env : Env) (e : Email) : String × Option String :=
  match lookupAssoc provider_login_urls e.domain with
  | some url => (e.domain, some url)
  | none => identify_provider_mx e.domain (get_mx_records env e.domain)

/-!
## SMTP probe (`verifier1.verify_smtp`)
-/

/-- The mutable `result` dict of `verify_smtp`. -/
structure SmtpProbeResult where
  is_deliverable : Bool := false
  smtp_check : Bool := false
  reason : Option String := none
  mx_used : Option String := none
deriving DecidableEq, Repr

/-- Whether the per-MX loop returned from the function or fell through to
the next MX host with the accumulated `result` dict. -/
inductive MxStep where
  | done (r : SmtpProbeResult)
  | next (acc : SmtpProbeResult)
deriving DecidableEq, Repr

/-- The retry loop of `verify_smtp` for one MX host: up to three attempts
(`fuel` starts at 3); a completed conversation records `mx_used` and
dispatches on the RCPT code — 250 returns deliverable, 550 returns reason
"Mailbox unavailable", anything else stores an error reason and moves to
the next MX; timeouts retry, other SMTP errors move on at once. -/
def smtpTryMx (env : Env) (email mx : String) :
    SmtpProbeResult → Nat → Nat → MxStep
  | acc, 0, _ => .next acc
  | acc, fuel + 1, attempt =>
    match env.smtpReply mx email attempt with
    | .code n msg =>
      let acc := { acc with mx_used := some mx }
      if n = 250 then .done { acc with is_deliverable := true, smtp_check := true }
      else if n = 550 then .done { acc with reason := some "Mailbox unavailable" }
      else .next { acc with reason := some ("SMTP Error: " ++ toString n ++ " - " ++ msg) }
    | .timeoutErr => smtpTryMx env email mx acc fuel (attempt + 1)
    | .smtpErr => .next acc

/-- The `for mx in mx_servers` loop of `verify_smtp`, threading the
mutable `result` dict; when no MX decided, a missing reason becomes
"All MX servers rejected connection or verification". -/
def verify_smtp_go (env : Env) (email : String) :
    List String → SmtpProbeResult → SmtpProbeResult
  | [], acc =>
    if acc.reason = none then
      { acc with reason := some "All MX servers rejected connection or verification" }
    else acc
  | mx :: rest, acc =>
    match smtpTryMx env email mx acc 3 0 with
    | .done r => r
    | .next acc' => verify_smtp_go env email rest acc'

/-- `verify_smtp`: RCPT-TO probing across the MX list. -/
def verify_smtp (env : Env) (email : String) (mx_servers : List String) :
    SmtpProbeResult :=
  if mx_servers = [] then { reason := some "No MX records found" }
  else verify_smtp_go env email mx_servers {}

/-- `check_catch_all`: false when the feature is disabled or the domain
has no MX records; otherwise probe a random local part and report whether
it was deliverable. -/
def check_catch_all (env : Env) (domain : String) : Bool :=
  if !env.catch_all_detection then false
  else
    let test_email := env.randomLocal ++ "@" ++ domain
    let mx_records := get_mx_records env domain
    if mx_records = [] then false
    else (verify_smtp env test_email mx_records).is_deliverable

/-!
## Persisted per-category data files (`settings/settings.py`)

`./data/{Valid,Invalid,Risky,Custom}.csv`, one address per row.
-/

/-- The four per-category data files. -/
structure DataFiles where
  valid : List Email := []
  invalid : List Email := []
  risky : List Email := []
  custom : List Email := []
deriving DecidableEq, Repr

/-- `Settings.check_email_in_data`: scan `Valid, Invalid, Risky, Custom`
in that order, returning the lowercase category of the first file that
contains the address. -/
def check_email_in_data (df : DataFiles) (email : Email) : Bool × Option String :=
  if df.valid.contains email then (true, some "valid")
  else if df.invalid.contains email then (true, some "invalid")
  else if df.risky.contains email then (true, some "risky")
  else if df.custom.contains email then (true, some "custom")
  else (false, none)

/-- `Settings.add_email_to_data`: reject unknown categories; append the
address to the chosen category file unless that same file already
contains it.  (The engine only ever passes the four lowercase
constants.) -/
def add_email_to_data (df : DataFiles) (email : Email) (category : String) :
    DataFiles × Bool :=
  if category = "valid" then
    if df.valid.contains email then (df, true)
    else ({ df with valid := df.valid ++ [email] }, true)
  else if category = "invalid" then
    if df.invalid.contains email then (df, true)
    else ({ df with invalid := df.invalid ++ [email] }, true)
  else if category = "risky" then
    if df.risky.contains email then (df, true)
    else ({ df with risky := df.risky ++ [email] }, true)
  else if category = "custom" then
    if df.custom.contains email then (df, true)
    else ({ df with custom := df.custom ++ [email] }, true)
  else (df, false)

/-!
## Engine state and probe events
-/

/-- Network actions a verification performs: an SMTP conversation for an
address, a Microsoft-API POST, a browser login session, or a rate-limit
sleep. -/
inductive Ev where
  | smtp (address : String)
  | msapi (address : String)
  | browser (address : String) (browserName : String)
  | slept (seconds : Int)
deriving DecidableEq, Repr

/-- Mutable state of `ImprovedLoginVerifier`: its in-memory result cache,
the persisted per-category data files (via the settings service), the
always-appended per-category CSVs under the verifier's own output
directory (`save_result`'s first write), and the rate limiter. -/
structure EngineState where
  result_cache : List (Email × EmailVerificationResult) := []
  data : DataFiles := {}
  csv_rows : List (String × Email) := []
  rl : RateLimiter := {}
deriving Repr

/-- `save_result`: append a row to the verifier's own category CSV, then
`add_email_to_data` into the data folder (idempotent per file), then the
history save (not modelled). -/
def save_result (st : EngineState) (r : EmailVerificationResult) : EngineState :=
  let st1 := { st with csv_rows := st.csv_rows ++ [(r.category, r.email)] }
  { st1 with data := (add_email_to_data st1.data r.email r.category).1 }

/-- The `self.result_cache[email] = result; self.save_result(result)`
pair that every strategy branch executes before returning. -/
def commit (st : EngineState) (r : EmailVerificationResult) : EngineState :=
  save_result { st with result_cache := setEmail st.result_cache r.email r } r

/-- The rate-limit preamble shared verbatim by `verify_email_smtp`,
`verify_microsoft_api` and `_verify_login`: check `is_rate_limited`; when
limited, sleep `get_backoff_time` seconds (the returned option); then
`add_request` unconditionally. -/
def rate_limit_prelude (rl : RateLimiter) (domain : String) (now : Int) :
    RateLimiter × Option Int :=
  let p := rl.is_rate_limited domain now
  if p.1 then (p.2.add_request domain now, some (p.2.get_backoff_time domain now))
  else (p.2.add_request domain now, none)

/-- Rate-limiter interaction events of the preamble, for stating temporal
properties: the check with its answer, the sleep when limited, the
recording of the request. -/
inductive RlEv where
  | checked (limited : Bool)
  | slept (seconds : Int)
  | recorded
deriving DecidableEq, Repr

/-- The preamble as the sequence of rate-limiter interactions it
performs. -/
def rate_limit_prelude_events (rl : RateLimiter) (domain : String) (now : Int) :
    List RlEv :=
  match (rate_limit_prelude rl domain now).2 with
  | some w => [.checked true, .slept w, .recorded]
  | none => [.checked false, .recorded]

/-- Sleep events contributed by the preamble to a probe's event list. -/
def sleepEvs : Option Int → List Ev
  | some w => [.slept w]
  | none => []

/-!
## Stateful probes
-/

/-- `verify_email_smtp`: rate-limit preamble, MX lookup (no servers →
INVALID), catch-all detection, RCPT probe, then classification —
deliverable on a catch-all domain is RISKY "Domain has catch-all
configuration", deliverable otherwise VALID, reason "Mailbox unavailable"
is RISKY, anything else INVALID. -/
def verify_email_smtp (env : Env) (st : EngineState) (e : Email) :
    EmailVerificationResult × EngineState × List Ev :=
  let domain := e.domain
  let pre := rate_limit_prelude st.rl domain env.now
  let st := { st with rl := pre.1 }
  let evs0 := sleepEvs pre.2
  let mx_records := get_mx_records env domain
  if mx_records = [] then
    ({ email := e, category := INVALID, reason := "Domain has no mail servers",
       provider := domain, timestamp := env.now }, st, evs0)
  else
    let is_catch_all := check_catch_all env domain
    let evs1 := evs0 ++
      (if env.catch_all_detection then [Ev.smtp (env.randomLocal ++ "@" ++ domain)] else [])
    let smtp_result := verify_smtp env e.addr mx_records
    let evs := evs1 ++ [Ev.smtp e.addr]
    if smtp_result.is_deliverable then
      if is_catch_all then
        ({ email := e, category := RISKY, reason := "Domain has catch-all configuration",
           provider := domain,
           details := some [("smtp_result", "smtp"), ("is_catch_all", "True")],
           timestamp := env.now }, st, evs)
      else
        ({ email := e, category := VALID, reason := "Email verified via SMTP",
           provider := domain, details := some [("smtp_result", "smtp")],
           timestamp := env.now }, st, evs)
    else if smtp_result.reason = some "Mailbox unavailable" then
      ({ email := e, category := RISKY,
         reason := "Mailbox unavailable (may not indicate invalid email)",
         provider := domain, details := some [("smtp_result", "smtp")],
         timestamp := env.now }, st, evs)
    else
      ({ email := e, category := INVALID,
         reason := "Email verification failed: " ++ (smtp_result.reason.getD "None"),
         provider := domain, details := some [("smtp_result", "smtp")],
         timestamp := env.now }, st, evs)

/-- `verify_microsoft_api`: gated on the `microsoft_api` setting (before
any rate limiting); rate-limit preamble; POST; `IfExistsResult` 0 → VALID,
1 → INVALID, otherwise `ThrottleStatus` 1 → set a 60 s domain backoff and
return no decision; every other response, network exhaustion or exception
also returns no decision. -/
def verify_microsoft_api (env : Env) (st : EngineState) (e : Email) :
    Option EmailVerificationResult × EngineState × List Ev :=
  if !env.microsoft_api then (none, st, [])
  else
    let domain := e.domain
    let pre := rate_limit_prelude st.rl domain env.now
    let st := { st with rl := pre.1 }
    let evs := sleepEvs pre.2 ++ [Ev.msapi e.addr]
    match env.msApi e.addr with
    | .netFail => (none, st, evs)
    | .exn _ => (none, st, evs)
    | .resp status ifExists throttle =>
      if status = 200 then
        if ifExists = some 0 then
          (some { email := e, category := VALID,
                  reason := "Email address exists (Microsoft API)",
                  provider := "Microsoft", details := some [("response", "data")],
                  timestamp := env.now }, st, evs)
        else if ifExists = some 1 then
          (some { email := e, category := INVALID,
                  reason := "Email address does not exist (Microsoft API)",
                  provider := "Microsoft", details := some [("response", "data")],
                  timestamp := env.now }, st, evs)
        else if throttle = some 1 then
          (none, { st with rl := st.rl.set_backoff domain 60 env.now }, evs)
        else (none, st, evs)
      else (none, st, evs)

/-- `check_microsoft_api_catch_all`: probe `admin@domain` and a random
local part through the API; catch-all iff both come back VALID. -/
def check_microsoft_api_catch_all (env : Env) (st : EngineState) (domain : String) :
    Bool × EngineState × List Ev :=
  let validEmail : Email := { localPart := "admin", domain := domain }
  let testEmail : Email := { localPart := env.randomLocal, domain := domain }
  let r1 := verify_microsoft_api env st validEmail
  let r2 := verify_microsoft_api env r1.2.1 testEmail
  (match r1.1, r2.1 with
   | some a, some b => a.category == VALID && b.category == VALID
   | _, _ => false,
   r2.2.1, r1.2.2 ++ r2.2.2)

/-- `_verify_login`: rate-limit preamble, then one browser session whose
classification comes from the oracle; a driver-creation exception
propagates (`Except.error`). -/
def _verify_login (env : Env) (st : EngineState) (e : Email)
    (provider _login_url browser : String) :
    Except String EmailVerificationResult × EngineState × List Ev :=
  let pre := rate_limit_prelude st.rl e.domain env.now
  let st := { st with rl := pre.1 }
  let evs := sleepEvs pre.2 ++ [Ev.browser e.addr browser]
  match env.browserProbe e.addr _login_url browser with
  | .raise m => (.error m, st, evs)
  | .outcome cat reason =>
    (.ok { email := e, category := cat.toStr, reason := reason, provider := provider,
           details := some [("browser", browser)], timestamp := env.now }, st, evs)

/-!
## Provider strategies (`verifier1.py`, `_verify_*_email`)

The browser `for` loops are modelled as recursions over the remaining
browser list, carrying the Python variable `result` of the previous
iteration (`Option`, `none` while unbound): several strategies fall back
to "the last Selenium result" after their loop, which raises `NameError`
when the loop never ran.  A strategy that falls off its function end
returning `None` is modelled as the exception its caller then raises.
-/

/-- `result.category in [VALID, INVALID]`. -/
def isDefinitive (r : EmailVerificationResult) : Bool :=
  r.category == VALID || r.category == INVALID

/-- The reason string `_verify_login` uses for an inconclusive page, which
the Gmail/Google/Microsoft strategies test for verbatim. -/
def noPromptReason : String :=
  "Could not determine if email exists (no password prompt or error)"

/-- How a strategy's browser loop ended: an early `return` (state already
committed), or fall-through carrying the last iteration's `result`. -/
inductive StratStep where
  | ret (r : EmailVerificationResult)
  | through (last : Option EmailVerificationResult)
deriving Repr

/-- The browser loop of `_verify_microsoft_email`: per browser, one login
probe; definitive → return; the two specific inconclusive outcomes trigger
a direct `login.live.com` retry with the next browser in rotation, whose
definitive result is returned, and whose repeated inconclusive outcome is
promoted to VALID "Email accepted (no rejection or error)". -/
def ms_browser_loop (env : Env) (e : Email) (provider login_url : String)
    (all : List String) :
    List String → EngineState → List Ev → Option EmailVerificationResult →
    Except String (StratStep × EngineState × List Ev)
  | [], st, evs, last => .ok (.through last, st, evs)
  | b :: rest, st, evs, _ =>
    match _verify_login env st e provider login_url b with
    | (.error m, _, _) => .error m
    | (.ok result, st1, evs1) =>
      let evs := evs ++ evs1
      if isDefinitive result then .ok (.ret result, commit st1 result, evs)
      else if (result.category == RISKY && result.reason == noPromptReason)
           || (result.category == CUSTOM && result.reason == "Redirected to custom login page") then
        let nextb := all.getD ((all.indexOf b + 1) % all.length) ""
        match _verify_login env st1 e provider "https://login.live.com" nextb with
        | (.error m, _, _) => .error m
        | (.ok direct, st2, evs2) =>
          let evs := evs ++ evs2
          if isDefinitive direct then .ok (.ret direct, commit st2 direct, evs)
          else if direct.category == RISKY && direct.reason == noPromptReason then
            let vr : EmailVerificationResult :=
              { email := e, category := VALID,
                reason := "Email accepted (no rejection or error)",
                provider := provider, details := direct.details, timestamp := env.now }
            .ok (.ret vr, commit st2 vr, evs)
          else ms_browser_loop env e provider login_url all rest st2 evs (some result)
      else ms_browser_loop env e provider login_url all rest st1 evs (some result)

/-- `_verify_microsoft_email`: API-level catch-all check (when the API is
enabled), then the API probe (used only when definitive), then the browser
loop, then SMTP, then the last Selenium result. -/
def _verify_microsoft_email (env : Env) (st : EngineState) (e : Email)
    (provider login_url domain : String) :
    Except String (EmailVerificationResult × EngineState × List Ev) :=
  let ca :=
    if env.microsoft_api then check_microsoft_api_catch_all env st domain
    else (false, st, [])
  let is_api_catch_all := ca.1
  let st := ca.2.1
  let evs := ca.2.2
  let apiStep :=
    if !is_api_catch_all then
      let a := verify_microsoft_api env st e
      match a.1 with
      | some r =>
        if isDefinitive r then (some r, a.2.1, evs ++ a.2.2)
        else (none, a.2.1, evs ++ a.2.2)
      | none => (none, a.2.1, evs ++ a.2.2)
    else (none, st, evs)
  match apiStep with
  | (some r, st, evs) => .ok (r, commit st r, evs)
  | (none, st, evs) =>
    match ms_browser_loop env e provider login_url env.browsers env.browsers st evs none with
    | .error m => .error m
    | .ok (.ret r, st, evs) => .ok (r, st, evs)
    | .ok (.through last, st, evs) =>
      let s := verify_email_smtp env st e
      let st := s.2.1
      let evs := evs ++ s.2.2
      if isDefinitive s.1 then .ok (s.1, commit st s.1, evs)
      else
        match last with
        | some r => .ok (r, commit st r, evs)
        | none => .error "NameError: name result is not defined"

/-- The browser loop shared by the Gmail and customGoogle strategies:
definitive → return; RISKY with the no-prompt reason is promoted to VALID
"Email accepted (no rejection or error)". -/
def google_browser_loop (env : Env) (e : Email) (provider login_url : String) :
    List String → EngineState → List Ev → Option EmailVerificationResult →
    Except String (StratStep × EngineState × List Ev)
  | [], st, evs, last => .ok (.through last, st, evs)
  | b :: rest, st, evs, _ =>
    match _verify_login env st e provider login_url b with
    | (.error m, _, _) => .error m
    | (.ok result, st1, evs1) =>
      let evs := evs ++ evs1
      if isDefinitive result then .ok (.ret result, commit st1 result, evs)
      else if result.category == RISKY && result.reason == noPromptReason then
        let vr : EmailVerificationResult :=
          { email := e, category := VALID,
            reason := "Email accepted (no rejection or error)",
            provider := provider, details := result.details, timestamp := env.now }
        .ok (.ret vr, commit st1 vr, evs)
      else google_browser_loop env e provider login_url rest st1 evs (some result)

/-- `_verify_gmail_email`: SMTP first (used when definitive), then the
browser loop, then the last Selenium result. -/
def _verify_gmail_email (env : Env) (st : EngineState) (e : Email)
    (provider login_url : String) :
    Except String (EmailVerificationResult × EngineState × List Ev) :=
  let s := verify_email_smtp env st e
  let st := s.2.1
  let evs := s.2.2
  if isDefinitive s.1 then .ok (s.1, commit st s.1, evs)
  else
    match google_browser_loop env e provider login_url env.browsers st evs none with
    | .error m => .error m
    | .ok (.ret r, st, evs) => .ok (r, st, evs)
    | .ok (.through (some r), st, evs) => .ok (r, commit st r, evs)
    | .ok (.through none, _, _) => .error "NameError: name result is not defined"

/-- `_verify_custom_google_email`: browser loop first, then SMTP (used
when definitive), then the last Selenium result. -/
def _verify_custom_google_email (env : Env) (st : EngineState) (e : Email)
    (provider login_url : String) :
    Except String (EmailVerificationResult × EngineState × List Ev) :=
  match google_browser_loop env e provider login_url env.browsers st [] none with
  | .error m => .error m
  | .ok (.ret r, st, evs) => .ok (r, st, evs)
  | .ok (.through last, st, evs) =>
    let s := verify_email_smtp env st e
    let st := s.2.1
    let evs := evs ++ s.2.2
    if isDefinitive s.1 then .ok (s.1, commit st s.1, evs)
    else
      match last with
      | some r => .ok (r, commit st r, evs)
      | none => .error "NameError: name result is not defined"

/-- `_verify_custom_domain_email`: catch-all check plus one RCPT probe
(no rate limiting on this path), classified exactly as in
`verify_email_smtp` but with provider "Custom"; always committed. -/
def _verify_custom_domain_email (env : Env) (st : EngineState) (e : Email)
    (domain : String) (mx_records : List String) :
    Except String (EmailVerificationResult × EngineState × List Ev) :=
  let is_catch_all := check_catch_all env domain
  let evs0 :=
    if env.catch_all_detection then [Ev.smtp (env.randomLocal ++ "@" ++ domain)] else []
  let smtp_result := verify_smtp env e.addr mx_records
  let evs := evs0 ++ [Ev.smtp e.addr]
  let r : EmailVerificationResult :=
    if smtp_result.is_deliverable then
      if is_catch_all then
        { email := e, category := RISKY, reason := "Domain has catch-all configuration",
          provider := "Custom",
          details := some [("smtp_result", "smtp"), ("is_catch_all", "True")],
          timestamp := env.now }
      else
        { email := e, category := VALID, reason := "Email verified via SMTP",
          provider := "Custom", details := some [("smtp_result", "smtp")],
          timestamp := env.now }
    else if smtp_result.reason = some "Mailbox unavailable" then
      { email := e, category := RISKY,
        reason := "Mailbox unavailable (may not indicate invalid email)",
        provider := "Custom", details := some [("smtp_result", "smtp")],
        timestamp := env.now }
    else
      { email := e, category := INVALID,
        reason := "Email verification failed: " ++ (smtp_result.reason.getD "None"),
        provider := "Custom", details := some [("smtp_result", "smtp")],
        timestamp := env.now }
  .ok (r, commit st r, evs)

/-- The browser loop of `_verify_other_provider_email` (verification loop
enabled): definitive → return; on the browser equal to `browsers[-1]`
with a RISKY/CUSTOM outcome, fall back to SMTP (used when definitive,
otherwise the browser result is committed). -/
def other_browser_loop (env : Env) (e : Email) (provider login_url : String)
    (all : List String) :
    List String → EngineState → List Ev →
    Except String (Option (EmailVerificationResult × EngineState × List Ev))
  | [], _, _ => .ok none
  | b :: rest, st, evs =>
    match _verify_login env st e provider login_url b with
    | (.error m, _, _) => .error m
    | (.ok result, st1, evs1) =>
      let evs := evs ++ evs1
      if isDefinitive result then .ok (some (result, commit st1 result, evs))
      else if some b == all.getLast?
           && (result.category == RISKY || result.category == CUSTOM) then
        let s := verify_email_smtp env st1 e
        let st2 := s.2.1
        let evs := evs ++ s.2.2
        if isDefinitive s.1 then .ok (some (s.1, commit st2 s.1, evs))
        else .ok (some (result, commit st2 result, evs))
      else other_browser_loop env e provider login_url all rest st1 evs

/-- `_verify_other_provider_email`: with the verification loop enabled,
the browser loop above (an empty browser list falls off the function end
returning `None`, which its callers raise on); otherwise one probe with
the first configured browser, committed whatever its category. -/
def _verify_other_provider_email (env : Env) (st : EngineState) (e : Email)
    (provider login_url : String) :
    Except String (EmailVerificationResult × EngineState × List Ev) :=
  if env.verification_loop_enabled then
    match other_browser_loop env e provider login_url env.browsers env.browsers st [] with
    | .error m => .error m
    | .ok (some out) => .ok out
    | .ok none => .error "AttributeError: NoneType object has no attribute"
  else
    match env.browsers with
    | [] => .error "IndexError: list index out of range"
    | b :: _ =>
      match _verify_login env st e provider login_url b with
      | (.error m, _, _) => .error m
      | (.ok result, st1, evs1) => .ok (result, commit st1 result, evs1)

/-- `verify_email` (the engine): pre-checks — persisted data files, then
the in-memory result cache, then format validation, then the blacklist,
then the whitelist (`skip_domains`), then MX existence — each returning
without any probe; then provider identification and the provider-specific
strategy. -/
def verify_email (env : Env) (st : EngineState) (e : Email) :
    Except String (EmailVerificationResult × EngineState × List Ev) :=
  match check_email_in_data st.data e with
  | (true, some cat) =>
    .ok ({ email := e, category := cat, reason := "Email found in " ++ cat ++ " list",
           provider := "cached", timestamp := env.now }, st, [])
  | _ =>
    match lookupEmail st.result_cache e with
    | some r => .ok (r, st, [])
    | none =>
      if !validate_format e then
        let r : EmailVerificationResult :=
          { email := e, category := INVALID, reason := "Invalid email format",
            provider := "unknown", timestamp := env.now }
        .ok (r, commit st r, [])
      else
        let domain := e.domain
        if env.blacklist.contains domain then
          let r : EmailVerificationResult :=
            { email := e, category := INVALID, reason := "Domain is blacklisted",
              provider := domain, timestamp := env.now }
          .ok (r, commit st r, [])
        else if env.skip_domains.contains domain then
          let r : EmailVerificationResult :=
            { email := e, category := VALID, reason := "Domain in whitelist",
              provider := domain, timestamp := env.now }
          .ok (r, commit st r, [])
        else
          let mx_records := get_mx_records env domain
          if mx_records = [] then
            let r : EmailVerificationResult :=
              { email := e, category := INVALID, reason := "Domain has no mail servers",
                provider := "unknown", timestamp := env.now }
            .ok (r, commit st r, [])
          else
            let pr := identify_provider env e
            let provider := pr.1
            let login_url := pr.2
            if ["outlook.com", "hotmail.com", "live.com", "microsoft.com",
                "office365.com"].contains provider then
              _verify_microsoft_email env st e provider (login_url.getD "") domain
            else if provider = "gmail.com" then
              _verify_gmail_email env st e provider (login_url.getD "")
            else if provider = "customGoogle" then
              _verify_custom_google_email env st e provider (login_url.getD "")
            else if provider = "custom" || login_url = none then
              _verify_custom_domain_email env st e domain mx_records
            else
              _verify_other_provider_email env st e provider (login_url.getD "")

/-!
## Service layer (`verifier_service.py`)
-/

/-- The dictionary `VerifierService.verify_email` returns: the result
fields plus the `method` key read back out of `details`. -/
structure ResponseDict where
  email : Email
  category : String
  reason : String
  provider : String
  details : Option (List (String × String))
  method : String
deriving DecidableEq, Repr

/-- Build the API response dictionary; `method` falls back to the request
method when `details` carries none (`result.details.get("method", method)`). -/
def toResponse (r : EmailVerificationResult) (method : String) : ResponseDict :=
  { email := r.email, category := r.category, reason := r.reason,
    provider := r.provider, details := r.details,
    method := (lookupAssoc (r.details.getD []) "method").getD method }

/-- Mutable state of `VerifierService`: its own result cache (persisted to
disk, bounded by `max_cache_size`), whether an SMTP (bounce) verifier was
configured, and the engine it owns. -/
structure SvcState where
  result_cache : List (Email × EmailVerificationResult) := []
  max_cache_size : Nat := 1000
  smtp_verifier : Bool := false
  engine : EngineState := {}
deriving Repr

/-- `VerifierService._add_to_cache`: when the cache is full, pop the
oldest tenth (insertion order), then store the entry. -/
def _add_to_cache (st : SvcState) (e : Email) (r : EmailVerificationResult) :
    SvcState :=
  let cache :=
    if st.max_cache_size ≤ st.result_cache.length then
      st.result_cache.drop (st.max_cache_size / 10)
    else st.result_cache
  { st with result_cache := setEmail cache e r }

/-- `VerifierService.verify_email`, the exposed `verify` operation:
a service-cache hit returns the cached result after writing the request
method into its (shared, hence also cached) `details` dict; on a miss,
`method == "smtp"` with a configured bounce verifier raises (that class
has no `verify_email` attribute), and every other method runs the login
engine, stamps `details` with method and timing, and caches the result.
Mutation of the Python result object is visible through both caches
because they alias it; the model updates the engine cache entry when it
holds the value the engine just returned. -/
def service_verify_email (env : Env) (st : SvcState) (e : Email) (method : String) :
    Except String (ResponseDict × SvcState × List Ev) :=
  match lookupEmail st.result_cache e with
  | some r =>
    let r' := { r with details := some (setAssoc (r.details.getD []) "method" method) }
    let st := { st with result_cache := setEmail st.result_cache e r' }
    .ok (toResponse r' method, st, [])
  | none =>
    if method = "smtp" && st.smtp_verifier then
      .error "AttributeError: EmailBounceVerifier has no attribute verify_email"
    else
      match verify_email env st.engine e with
      | .error m => .error m
      | .ok (r, est, evs) =>
        let r' := { r with details := some (setAssoc
          (setAssoc (r.details.getD []) "method" "login") "verification_time" "t") }
        let est :=
          if lookupEmail est.result_cache e = some r then
            { est with result_cache := setEmail est.result_cache e r' }
          else est
        let st := _add_to_cache { st with engine := est } e r'
        .ok (toResponse r' method, st, evs)

/-- The error dictionary `_background_verification` stores when verifying
one address raises: category literally `"error"`, reason the exception
text. -/
def errorResponse (e : Email) (m method : String) : ResponseDict :=
  { email := e, category := "error", reason := m, provider := "unknown",
    details := some [("error", m), ("method", method)], method := method }

/-- The `for email in emails` loop of `_background_verification`,
threading the service state and accumulating `results` and `completed`. -/
def background_loop (env : Env) (method : String) :
    List Email → SvcState → List (Email × ResponseDict) → Nat →
    SvcState × List (Email × ResponseDict) × Nat
  | [], st, results, completed => (st, results, completed)
  | e :: rest, st, results, completed =>
    match service_verify_email env st e method with
    | .ok (d, st', _) =>
      background_loop env method rest st' (setEmail results e d) (completed + 1)
    | .error m =>
      background_loop env method rest st
        (setEmail results e (errorResponse e m method)) (completed + 1)

/-!
## Batch task status (`verifier_service.py`, `get_task_status`)
-/

/-- One entry of `self.verification_tasks`. -/
structure TaskData where
  status : String
  total : Nat
  completed : Nat
  results : List (Email × ResponseDict) := []
  start_time : Int := 0
  end_time : Option Int := none
  method : String := "auto"
deriving DecidableEq, Repr

/-- `VerifierService._background_verification`: run the loop over the
task's address list, then mark the task completed with an end time. -/
def _background_verification (env : Env) (st : SvcState) (emails : List Email)
    (method : String) (start_time : Int) : TaskData × SvcState :=
  let out := background_loop env method emails st [] 0
  ({ status := "completed", total := emails.length, completed := out.2.2,
     results := out.2.1, start_time := start_time, end_time := some env.now,
     method := method }, out.1)

/-- The dictionary returned by `get_task_status`. -/
structure TaskStatus where
  task_id : String
  status : String
  total : Nat
  completed : Nat
  progress : ℚ
  start_time : Int
  end_time : Option Int
  method : String
deriving DecidableEq, Repr

/-- `VerifierService.get_task_status`: `None` for unknown ids; otherwise a
status dictionary whose progress percentage is guarded against a zero
total. -/
def get_task_status (tasks : List (String × TaskData)) (task_id : String) :
    Option TaskStatus :=
  match lookupAssoc tasks task_id with
  | none => none
  | some t =>
    some { task_id := task_id
           status := t.status
           total := t.total
           completed := t.completed
           progress := if 0 < t.total then ((t.completed : ℚ) / t.total) * 100 else 0
           start_time := t.start_time
           end_time := t.end_time
           method := t.method }

/-- `EmailVerificationResult.to_dict`. -/
structure WorkerDict where
  email : Email
  category : String
  reason : String
  provider : String
  details : Option (List (String × String))
  timestamp : Int
deriving DecidableEq, Repr

/-- `to_dict` on a result. -/
def to_dict (r : EmailVerificationResult) : WorkerDict :=
  { email := r.email, category := r.category, reason := r.reason,
    provider := r.provider, details := r.details, timestamp := r.timestamp }

/-- The loop of `ImprovedLoginVerifier._process_worker`: verify each
address with the engine, enqueueing `(email, result.to_dict())`; an
exception enqueues a RISKY result with reason "Verification error: <msg>"
and the worker continues. -/
def process_worker_loop (env : Env) :
    List Email → EngineState → List (Email × WorkerDict) →
    List (Email × WorkerDict) × EngineState
  | [], st, q => (q, st)
  | e :: rest, st, q =>
    match verify_email env st e with
    | .ok (r, st', _) => process_worker_loop env rest st' (q ++ [(e, to_dict r)])
    | .error m =>
      process_worker_loop env rest st
        (q ++ [(e, { email := e, category := RISKY,
                     reason := "Verification error: " ++ m,
                     provider := "unknown", details := some [("error", m)],
                     timestamp := env.now })])

/-- `_process_worker`: the queue contents produced for a worker's slice of
the batch. -/
def _process_worker (env : Env) (st : EngineState) (emails : List Email) :
    List (Email × WorkerDict) × EngineState :=
  process_worker_loop env emails st []

/-!
## Association-list lemmas
-/

theorem lookupAssoc_setAssoc_self {α : Type} (l : List (String × α)) (k : String)
    (v : α) : lookupAssoc (setAssoc l k v) k = some v := by
  induction l with
  | nil => simp [setAssoc, lookupAssoc]
  | cons p rest ih =>
    by_cases h : p.1 = k
    · simp [setAssoc, lookupAssoc, h]
    · simp [setAssoc, lookupAssoc, h, ih]

theorem lookupAssoc_setAssoc_ne {α : Type} (l : List (String × α)) (k k' : String)
    (v : α) (h : k' ≠ k) :
    lookupAssoc (setAssoc l k v) k' = lookupAssoc l k' := by
  induction l with
  | nil => simp [setAssoc, lookupAssoc, Ne.symm h]
  | cons p rest ih =>
    by_cases hp : p.1 = k
    · subst hp
      simp [setAssoc, lookupAssoc, Ne.symm h]
    · simp only [setAssoc, if_neg hp, lookupAssoc]
      by_cases hp' : p.1 = k'
      · simp [hp']
      · simp [hp', ih]

theorem lookupEmail_setEmail_self {α : Type} (l : List (Email × α)) (k : Email)
    (v : α) : lookupEmail (setEmail l k v) k = some v := by
  induction l with
  | nil => simp [setEmail, lookupEmail]
  | cons p rest ih =>
    by_cases h : p.1 = k
    · simp [setEmail, lookupEmail, h]
    · simp [setEmail, lookupEmail, h, ih]

theorem lookupEmail_setEmail_isSome {α : Type} (l : List (Email × α)) (k k' : Email)
    (v : α) (h : (lookupEmail l k').isSome) :
    (lookupEmail (setEmail l k v) k').isSome := by
  induction l with
  | nil => simp [lookupEmail] at h
  | cons p rest ih =>
    by_cases hp : p.1 = k
    · subst hp
      by_cases hk : p.1 = k'
      · simp [setEmail, lookupEmail, hk]
      · simp only [lookupEmail, if_neg hk] at h
        simp [setEmail, lookupEmail, hk, h]
    · simp only [setEmail, if_neg hp]
      by_cases hk : p.1 = k'
      · simp [lookupEmail, hk]
      · simp only [lookupEmail, if_neg hk] at h ⊢
        exact ih h

/-!
## Claim C6 — the rate-limiter characterization
-/

/-- C6.  For every domain `d` and moment `now`, `is_rate_limited` reports
`d` as limited iff `now` is before a recorded backoff deadline for `d` or
at least `max_requests` recorded timestamps `t` of `d` satisfy
`now - t < time_window`.  (Stated for limiters with `max_requests ≥ 1`,
which includes the default 10: with `max_requests = 0` the code answers
false for a never-seen domain while the count criterion would fire.) -/
theorem claim_C6 (rl : RateLimiter) (d : String) (now : Int)
    (h : 1 ≤ rl.max_requests) :
    (rl.is_rate_limited d now).1 = true ↔
      ((∃ b, lookupAssoc rl.backoff_times d = some b ∧ now < b) ∨
        rl.max_requests ≤
          (((lookupAssoc rl.request_history d).getD []).filter
            (fun t => now - t < rl.time_window)).length) := by
  have hist : ∀ rl' : RateLimiter, rl'.max_requests = rl.max_requests →
      rl'.time_window = rl.time_window →
      rl'.request_history = rl.request_history →
      ((rl'.historyCheck d now).1 = true ↔
        rl.max_requests ≤
          (((lookupAssoc rl.request_history d).getD []).filter
            (fun t => now - t < rl.time_window)).length) := by
    intro rl' hmax hwin hhist
    unfold RateLimiter.historyCheck
    rw [hmax, hwin, hhist]
    cases hl : lookupAssoc rl.request_history d with
    | none =>
      simp only [hl, Option.getD_none, List.filter_nil, List.length_nil]
      constructor
      · intro h'
        simp at h'
      · intro h'
        omega
    | some ts => simp [hl]
  unfold RateLimiter.is_rate_limited
  cases hb : lookupAssoc rl.backoff_times d with
  | none =>
    simp only [hb]
    rw [hist rl rfl rfl rfl]
    constructor
    · intro h'
      exact Or.inr h'
    · rintro (⟨b, hb', _⟩ | h')
      · simp [hb] at hb'
      · exact h'
  | some b =>
    simp only [hb]
    by_cases hlt : now < b
    · simp only [if_pos hlt]
      constructor
      · intro _
        exact Or.inl ⟨b, rfl, hlt⟩
      · intro _
        trivial
    · simp only [if_neg hlt]
      rw [hist { rl with backoff_times := eraseAssoc rl.backoff_times d } rfl rfl rfl]
      constructor
      · intro h'
        exact Or.inr h'
      · rintro (⟨b', hb', hlt'⟩ | h')
        · cases Option.some.inj hb'
          exact absurd hlt' hlt
        · exact h'

/-- Witness for C6: a limiter with `max_requests = 2` and two in-window
requests for `x.com` is reported limited. -/
theorem claim_C6_witness :
    1 ≤ (RateLimiter.mk 2 60 [("x.com", [5, 30])] []).max_requests ∧
      (((RateLimiter.mk 2 60 [("x.com", [5, 30])] []).is_rate_limited "x.com" 60).1 = true ↔
        ((∃ b, lookupAssoc (RateLimiter.mk 2 60 [("x.com", [5, 30])] []).backoff_times "x.com" = some b ∧ (60 : Int) < b) ∨
          (RateLimiter.mk 2 60 [("x.com", [5, 30])] []).max_requests ≤
            (((lookupAssoc (RateLimiter.mk 2 60 [("x.com", [5, 30])] []).request_history "x.com").getD []).filter
              (fun t => (60 : Int) - t < (RateLimiter.mk 2 60 [("x.com", [5, 30])] []).time_window)).length)) :=
  ⟨by decide, claim_C6 (RateLimiter.mk 2 60 [("x.com", [5, 30])] []) "x.com" 60 (by decide)⟩

/-!
## Claim C10 — totality of `get_task_status`
-/

/-- C10.  `get_task_status` is total: an unknown task id yields `none`
rather than an exception, and a known task with an empty address list
(`total = 0`) reports progress 0 — the percentage division is guarded. -/
theorem claim_C10 (tasks : List (String × TaskData)) (id : String) :
    (lookupAssoc tasks id = none → get_task_status tasks id = none) ∧
      (∀ t, lookupAssoc tasks id = some t →
        ∃ s, get_task_status tasks id = some s ∧
          s.completed = t.completed ∧ (t.total = 0 → s.progress = 0)) := by
  constructor
  · intro h
    simp [get_task_status, h]
  · intro t h
    refine ⟨{ task_id := id, status := t.status, total := t.total,
              completed := t.completed,
              progress := if 0 < t.total then ((t.completed : ℚ) / t.total) * 100 else 0,
              start_time := t.start_time, end_time := t.end_time,
              method := t.method },
            by simp [get_task_status, h], rfl, ?_⟩
    intro h0
    simp [h0]

/-!
## Claim C7 — rate-limit handling at the probe call sites
-/

/-- Number of limiter checks in a rate-limit interaction trace. -/
def checkCount (evs : List RlEv) : Nat :=
  evs.countP fun ev => match ev with | RlEv.checked _ => true | _ => false

/-- C7 counterexample.  A limiter whose window for `y.com` is saturated
(two requests in the last 60 s, limit 2, no backoff) reports limited;
the caller preamble then sleeps `get_backoff_time = 0` seconds and
proceeds with exactly one limiter check — it never re-checks before
recording the request, contradicting the claim that a limited caller
"re-checks the limiter before proceeding". -/
theorem claim_C7_counterexample :
    ((RateLimiter.mk 2 60 [("y.com", [50, 55])] []).is_rate_limited "y.com" 60).1 = true ∧
      rate_limit_prelude_events (RateLimiter.mk 2 60 [("y.com", [50, 55])] []) "y.com" 60 =
        [RlEv.checked true, RlEv.slept 0, RlEv.recorded] ∧
      ¬ 2 ≤ checkCount
        (rate_limit_prelude_events (RateLimiter.mk 2 60 [("y.com", [50, 55])] []) "y.com" 60) := by
  decide

/-- C7 (amended).  At each probe call site the rate-limit preamble checks
the limiter exactly once; when limited it sleeps the remaining backoff
(0 when the limit stems only from a saturated window) and proceeds
without re-checking; and in every case the request is recorded
afterwards — the trace ends with `recorded` and the domain's history
gains `now`. -/
theorem claim_C7 (rl : RateLimiter) (d : String) (now : Int) :
    (rate_limit_prelude_events rl d now).getLast? = some RlEv.recorded ∧
      checkCount (rate_limit_prelude_events rl d now) = 1 ∧
      ((rl.is_rate_limited d now).1 = true →
        rate_limit_prelude_events rl d now =
          [RlEv.checked true,
           RlEv.slept ((rl.is_rate_limited d now).2.get_backoff_time d now),
           RlEv.recorded]) ∧
      ((rl.is_rate_limited d now).1 = false →
        rate_limit_prelude_events rl d now = [RlEv.checked false, RlEv.recorded]) ∧
      lookupAssoc (rate_limit_prelude rl d now).1.request_history d =
        some (((lookupAssoc (rl.is_rate_limited d now).2.request_history d).getD []) ++ [now]) := by
  unfold rate_limit_prelude_events rate_limit_prelude RateLimiter.add_request
  cases hp : (rl.is_rate_limited d now).1 <;>
    simp [hp, checkCount, List.countP_cons, lookupAssoc_setAssoc_self]

/-- Witness for C7: the amended theorem applied to the saturated limiter
of the counterexample scenario. -/
theorem claim_C7_witness :
    ((RateLimiter.mk 2 60 [("y.com", [50, 55])] []).is_rate_limited "y.com" 60).1 = true ∧
      rate_limit_prelude_events (RateLimiter.mk 2 60 [("y.com", [50, 55])] []) "y.com" 60 =
        [RlEv.checked true,
         RlEv.slept (((RateLimiter.mk 2 60 [("y.com", [50, 55])] []).is_rate_limited "y.com" 60).2.get_backoff_time "y.com" 60),
         RlEv.recorded] :=
  ⟨by decide,
   (claim_C7 (RateLimiter.mk 2 60 [("y.com", [50, 55])] []) "y.com" 60).2.2.1 (by decide)⟩

/-!
## Claim C8 — RCPT 550 is classified RISKY
-/

theorem smtp_error_ne (s : String) : ("SMTP Error: " ++ s) ≠ "Mailbox unavailable" := by
  obtain ⟨l⟩ := s
  intro h
  have h2 := congrArg String.data h
  simp [String.data] at h2

/-- Invariant of the per-MX retry loop: starting from an accumulator that
is not deliverable and does not carry the 550 reason, a `done` outcome
with reason "Mailbox unavailable" is never deliverable (it is the 550
branch), and a `next` outcome re-establishes the invariant. -/
theorem smtpTryMx_inv (env : Env) (email mx : String) :
    ∀ fuel attempt acc, acc.is_deliverable = false →
      acc.reason ≠ some "Mailbox unavailable" →
      (∀ r, smtpTryMx env email mx acc fuel attempt = .done r →
        r.reason = some "Mailbox unavailable" → r.is_deliverable = false) ∧
      (∀ acc', smtpTryMx env email mx acc fuel attempt = .next acc' →
        acc'.is_deliverable = false ∧ acc'.reason ≠ some "Mailbox unavailable") := by
  intro fuel
  induction fuel with
  | zero =>
    intro attempt acc hdel hreason
    refine ⟨fun r hr => ?_, fun acc' hn => ?_⟩
    · simp [smtpTryMx] at hr
    · simp only [smtpTryMx] at hn
      cases hn
      exact ⟨hdel, hreason⟩
  | succ fuel ih =>
    intro attempt acc hdel hreason
    refine ⟨fun r hr => ?_, fun acc' hn => ?_⟩
    · simp only [smtpTryMx] at hr
      cases hrep : env.smtpReply mx email attempt with
      | code n msg =>
        rw [hrep] at hr
        by_cases h250 : n = 250
        · simp only [h250, if_pos rfl] at hr
          cases hr
          intro hrs
          exact absurd hrs hreason
        · by_cases h550 : n = 550
          · simp only [if_neg h250, h550, if_pos rfl] at hr
            cases hr
            intro _
            exact hdel
          · simp [if_neg h250, if_neg h550] at hr
      | timeoutErr =>
        rw [hrep] at hr
        exact (ih (attempt + 1) acc hdel hreason).1 r hr
      | smtpErr =>
        rw [hrep] at hr
        cases hr
    · simp only [smtpTryMx] at hn
      cases hrep : env.smtpReply mx email attempt with
      | code n msg =>
        rw [hrep] at hn
        by_cases h250 : n = 250
        · simp [h250] at hn
        · by_cases h550 : n = 550
          · simp [if_neg h250, h550] at hn
          · simp only [if_neg h250, if_neg h550] at hn
            cases hn
            refine ⟨hdel, ?_⟩
            intro hcontra
            exact smtp_error_ne _ (Option.some.inj hcontra)
      | timeoutErr =>
        rw [hrep] at hn
        exact (ih (attempt + 1) acc hdel hreason).2 acc' hn
      | smtpErr =>
        rw [hrep] at hn
        cases hn
        exact ⟨hdel, hreason⟩

/-- Across the MX loop: a result carrying reason "Mailbox unavailable"
came from the 550 branch and is therefore not deliverable. -/
theorem verify_smtp_go_mailbox (env : Env) (email : String) :
    ∀ mxs acc, acc.is_deliverable = false →
      acc.reason ≠ some "Mailbox unavailable" →
      ((verify_smtp_go env email mxs acc).reason = some "Mailbox unavailable" →
        (verify_smtp_go env email mxs acc).is_deliverable = false) := by
  intro mxs
  induction mxs with
  | nil =>
    intro acc hdel hreason hmail
    simp only [verify_smtp_go] at hmail ⊢
    by_cases hr : acc.reason = none
    · rw [if_pos hr] at hmail
      simp at hmail
    · rw [if_neg hr] at hmail ⊢
      exact absurd hmail hreason
  | cons mx rest ih =>
    intro acc hdel hreason
    simp only [verify_smtp_go]
    cases hstep : smtpTryMx env email mx acc 3 0 with
    | done r =>
      intro hmail
      exact (smtpTryMx_inv env email mx 3 0 acc hdel hreason).1 r hstep hmail
    | next acc' =>
      obtain ⟨hdel', hreason'⟩ :=
        (smtpTryMx_inv env email mx 3 0 acc hdel hreason).2 acc' hstep
      exact ih acc' hdel' hreason'

/-- `verify_smtp` specializes the loop invariant: reason
"Mailbox unavailable" implies not deliverable. -/
theorem verify_smtp_mailbox (env : Env) (email : String) (mxs : List String)
    (h : (verify_smtp env email mxs).reason = some "Mailbox unavailable") :
    (verify_smtp env email mxs).is_deliverable = false := by
  unfold verify_smtp at h ⊢
  by_cases hmx : mxs = []
  · rw [if_pos hmx] at h
    simp at h
  · rw [if_neg hmx] at h ⊢
    exact verify_smtp_go_mailbox env email mxs {} rfl (by simp) h

/-- C8.  When the SMTP probe decides with a 550 RCPT reply (observable as
the internal outcome reason "Mailbox unavailable") on a non-catch-all
domain, the probe is not deliverable and `verify_email_smtp` classifies
the address RISKY — not INVALID — with the mailbox-unavailable reason. -/
theorem claim_C8 (env : Env) (st : EngineState) (e : Email)
    (h550 : (verify_smtp env e.addr (get_mx_records env e.domain)).reason =
      some "Mailbox unavailable")
    (hnca : check_catch_all env e.domain = false) :
    (verify_smtp env e.addr (get_mx_records env e.domain)).is_deliverable = false ∧
      (verify_email_smtp env st e).1.category = RISKY ∧
      (verify_email_smtp env st e).1.category ≠ INVALID ∧
      (verify_email_smtp env st e).1.reason =
        "Mailbox unavailable (may not indicate invalid email)" := by
  have hdel := verify_smtp_mailbox env e.addr (get_mx_records env e.domain) h550
  refine ⟨hdel, ?_⟩
  by_cases hmx : get_mx_records env e.domain = []
  · rw [hmx] at h550
    simp [verify_smtp] at h550
  · simp only [verify_email_smtp, hmx, if_neg hmx, hnca, hdel, h550]
    simp [RISKY, INVALID]

/-- Witness for C8: one MX whose RCPT answer is always 550. -/
theorem claim_C8_witness :
    (verify_smtp
        { mx := fun _ => ["mx1.y.com"],
          smtpReply := fun _ _ _ => .code 550 "user unknown" }
        (Email.mk "a" "y.com").addr
        (get_mx_records
          { mx := fun _ => ["mx1.y.com"],
            smtpReply := fun _ _ _ => .code 550 "user unknown" } "y.com")).is_deliverable = false ∧
      (verify_email_smtp
          { mx := fun _ => ["mx1.y.com"],
            smtpReply := fun _ _ _ => .code 550 "user unknown" }
          {} (Email.mk "a" "y.com")).1.category = RISKY ∧
      (verify_email_smtp
          { mx := fun _ => ["mx1.y.com"],
            smtpReply := fun _ _ _ => .code 550 "user unknown" }
          {} (Email.mk "a" "y.com")).1.category ≠ INVALID ∧
      (verify_email_smtp
          { mx := fun _ => ["mx1.y.com"],
            smtpReply := fun _ _ _ => .code 550 "user unknown" }
          {} (Email.mk "a" "y.com")).1.reason =
        "Mailbox unavailable (may not indicate invalid email)" :=
  claim_C8
    { mx := fun _ => ["mx1.y.com"], smtpReply := fun _ _ _ => .code 550 "user unknown" }
    {} (Email.mk "a" "y.com") (by rfl) (by rfl)

/-!
## Claim C3 — catch-all domains and VALID verdicts
-/

/-- A Google-hosted custom domain whose mail server accepts every RCPT
(a catch-all), and whose login page shows a password challenge for the
probed address: the browser probe answers VALID. -/
def envC3 : Env :=
  { mx := fun d => if d = "acme.com" then ["aspmx.l.google.com"] else [],
    smtpReply := fun _ _ _ => .code 250 "OK",
    browserProbe := fun _ _ _ => .outcome .valid "URL changed to password challenge" }

/-- C3 counterexample.  `acme.com` is a catch-all domain in the claim's
sense (the SMTP probe of the synthesized 16-character random local part
is accepted with 250), yet `verify_email` — routed to the customGoogle
strategy, browser first — returns VALID for `bob@acme.com` with the
browser's reason: the VALID verdict is not downgraded to RISKY.  Only the
SMTP paths downgrade. -/
theorem claim_C3_counterexample :
    check_catch_all envC3 "acme.com" = true ∧
      envC3.randomLocal.length = 16 ∧
      ((verify_email envC3 {} (Email.mk "bob" "acme.com")).map
          (fun x => (x.1.category, x.1.reason))) =
        .ok ("valid", "URL changed to password challenge") :=
  ⟨by rfl, by rfl, by rfl⟩

/-- A catch-all verdict presupposes the domain had MX records. -/
theorem check_catch_all_mx (env : Env) (d : String)
    (h : check_catch_all env d = true) : get_mx_records env d ≠ [] := by
  intro hmx
  unfold check_catch_all at h
  cases hd : env.catch_all_detection with
  | false => simp [hd] at h
  | true => simp [hd, hmx] at h

/-- C3 (amended).  Within the SMTP verification paths, a detected
catch-all domain never yields VALID: whenever the RCPT probe of the real
address is accepted, both `verify_email_smtp` and the custom-domain
strategy downgrade to RISKY with reason "Domain has catch-all
configuration".  (VALID verdicts produced by the browser probe for a
catch-all domain are not downgraded, per the counterexample.) -/
theorem claim_C3 (env : Env) (st : EngineState) (e : Email)
    (hca : check_catch_all env e.domain = true) :
    ((verify_email_smtp env st e).1.category ≠ VALID) ∧
      ((verify_smtp env e.addr (get_mx_records env e.domain)).is_deliverable = true →
        (verify_email_smtp env st e).1.category = RISKY ∧
        (verify_email_smtp env st e).1.reason = "Domain has catch-all configuration") ∧
      (∀ r st' evs,
        _verify_custom_domain_email env st e e.domain (get_mx_records env e.domain) =
          .ok (r, st', evs) →
        r.category ≠ VALID ∧
        ((verify_smtp env e.addr (get_mx_records env e.domain)).is_deliverable = true →
          r.category = RISKY ∧ r.reason = "Domain has catch-all configuration")) := by
  have hmx := check_catch_all_mx env e.domain hca
  refine ⟨?_, ?_, ?_⟩
  · simp only [verify_email_smtp, if_neg hmx, hca]
    by_cases hdel : (verify_smtp env e.addr (get_mx_records env e.domain)).is_deliverable
    · simp [hdel, RISKY, VALID]
    · simp only [Bool.not_eq_true] at hdel
      simp only [hdel, if_neg]
      by_cases hmail : (verify_smtp env e.addr (get_mx_records env e.domain)).reason =
          some "Mailbox unavailable"
      · simp [hmail, RISKY, VALID]
      · simp [hmail, INVALID, VALID]
  · intro hdel
    simp [verify_email_smtp, if_neg hmx, hca, hdel, RISKY]
  · intro r st' evs hok
    simp only [_verify_custom_domain_email, hca, Except.ok.injEq] at hok
    have hr := congrArg Prod.fst hok
    dsimp only at hr
    subst hr
    by_cases hdel : (verify_smtp env e.addr (get_mx_records env e.domain)).is_deliverable
    · constructor
      · simp [hdel, RISKY, VALID]
      · intro _
        simp [hdel, RISKY]
    · simp only [Bool.not_eq_true] at hdel
      constructor
      · by_cases hmail : (verify_smtp env e.addr (get_mx_records env e.domain)).reason =
            some "Mailbox unavailable"
        · simp [hdel, hmail, RISKY, VALID]
        · simp [hdel, hmail, INVALID, VALID]
      · intro hcontra
        rw [hdel] at hcontra
        cases hcontra

/-- Witness for C3: the catch-all environment of the counterexample run
through `verify_email_smtp` yields RISKY "Domain has catch-all
configuration". -/
theorem claim_C3_witness :
    (verify_email_smtp envC3 {} (Email.mk "bob" "acme.com")).1.category ≠ VALID ∧
      (verify_email_smtp envC3 {} (Email.mk "bob" "acme.com")).1.category = RISKY ∧
      (verify_email_smtp envC3 {} (Email.mk "bob" "acme.com")).1.reason =
        "Domain has catch-all configuration" := by
  have h := claim_C3 envC3 {} (Email.mk "bob" "acme.com") (by rfl)
  exact ⟨h.1, h.2.1 (by rfl)⟩

/-!
## Claim C9 — result immutability
-/

/-- A produced result with empty `details`, as cached by the service. -/
def rC9 : EmailVerificationResult :=
  { email := Email.mk "u" "x.com", category := "valid",
    reason := "Email verified via SMTP", provider := "x.com",
    details := none, timestamp := 5 }

/-- A service whose cache holds `rC9`. -/
def stC9 : SvcState := { result_cache := [(Email.mk "u" "x.com", rC9)] }

/-- C9 counterexample.  Before the call the cached result for `u@x.com`
has `details = none`; a verify that hits the cache rewrites the shared
result object's `details` to carry the request method — the cache entry
after the call differs in its `details` field, so results are not
immutable once produced. -/
theorem claim_C9_counterexample :
    (lookupEmail stC9.result_cache (Email.mk "u" "x.com")).map (·.details) =
        some none ∧
      (service_verify_email {} stC9 (Email.mk "u" "x.com") "auto").map
          (fun x => (lookupEmail x.2.1.result_cache (Email.mk "u" "x.com")).map (·.details)) =
        .ok (some (some [("method", "auto")])) :=
  ⟨by rfl, by rfl⟩

/-- C9 (amended).  A cache-hitting verify leaves every field of the
already-produced result unchanged except `details`, which gains (or
overwrites) exactly the `"method"` key; `address`, `verdict`, `reason`,
`provider` and `timestamp` are never modified. -/
theorem claim_C9 (env : Env) (st : SvcState) (e : Email) (m : String)
    (r : EmailVerificationResult)
    (h : lookupEmail st.result_cache e = some r) :
    ∃ r', service_verify_email env st e m =
        .ok (toResponse r' m,
             { st with result_cache := setEmail st.result_cache e r' }, []) ∧
      r'.email = r.email ∧ r'.category = r.category ∧ r'.reason = r.reason ∧
      r'.provider = r.provider ∧ r'.timestamp = r.timestamp ∧
      r'.details = some (setAssoc (r.details.getD []) "method" m) ∧
      (∀ k, k ≠ "method" →
        lookupAssoc (r'.details.getD []) k = lookupAssoc (r.details.getD []) k) ∧
      lookupAssoc (r'.details.getD []) "method" = some m := by
  refine ⟨{ r with details := some (setAssoc (r.details.getD []) "method" m) },
          ?_, rfl, rfl, rfl, rfl, rfl, rfl, ?_, ?_⟩
  · simp [service_verify_email, h]
  · intro k hk
    simpa using lookupAssoc_setAssoc_ne (r.details.getD []) "method" k m hk
  · simpa using lookupAssoc_setAssoc_self (r.details.getD []) "method" m

/-- Witness for C9: the amended frame property at the concrete cached
state of the counterexample. -/
theorem claim_C9_witness :
    ∃ r', service_verify_email {} stC9 (Email.mk "u" "x.com") "auto" =
        .ok (toResponse r' "auto",
             { stC9 with
                result_cache := setEmail stC9.result_cache (Email.mk "u" "x.com") r' },
             []) ∧
      r'.email = rC9.email ∧ r'.category = rC9.category ∧ r'.reason = rC9.reason ∧
      r'.provider = rC9.provider ∧ r'.timestamp = rC9.timestamp ∧
      r'.details = some (setAssoc (rC9.details.getD []) "method" "auto") ∧
      (∀ k, k ≠ "method" →
        lookupAssoc (r'.details.getD []) k = lookupAssoc (rC9.details.getD []) k) ∧
      lookupAssoc (r'.details.getD []) "method" = some "auto" :=
  claim_C9 {} stC9 (Email.mk "u" "x.com") "auto" rC9 (by rfl)

/-!
## Claim C4 — determinism given cache
-/

/-- After a successful `verify`, the service cache holds a result whose
category is the returned verdict: both the cache-hit path (which
re-stores the mutated object) and the miss path (`_add_to_cache` after
the engine call) leave such an entry. -/
theorem service_verify_caches (env : Env) (st : SvcState) (e : Email) (m : String)
    (d1 : ResponseDict) (st1 : SvcState) (ev1 : List Ev)
    (h : service_verify_email env st e m = .ok (d1, st1, ev1)) :
    ∃ r', lookupEmail st1.result_cache e = some r' ∧ r'.category = d1.category := by
  cases hc : lookupEmail st.result_cache e with
  | some r =>
    simp only [service_verify_email, hc, Except.ok.injEq, Prod.mk.injEq] at h
    obtain ⟨h1, h2, -⟩ := h
    subst h1 h2
    refine ⟨{ r with details := some (setAssoc (r.details.getD []) "method" m) },
            ?_, rfl⟩
    simp [lookupEmail_setEmail_self]
  | none =>
    simp only [service_verify_email, hc] at h
    split at h
    · cases h
    · cases hv : verify_email env st.engine e with
      | error msg =>
        rw [hv] at h
        cases h
      | ok t =>
        obtain ⟨r, est, evs⟩ := t
        rw [hv] at h
        simp only [Except.ok.injEq, Prod.mk.injEq] at h
        obtain ⟨h1, h2, -⟩ := h
        subst h1 h2
        refine ⟨{ r with details := some (setAssoc
            (setAssoc (r.details.getD []) "method" "login") "verification_time" "t") },
          ?_, rfl⟩
        simp [_add_to_cache, lookupEmail_setEmail_self]

/-- C4.  If `verify(a)` returns verdict V, then any later `verify(a)` run
from a state whose cache entry for `a` is still the one the first call
left (the entry lives) returns the same verdict V with an empty probe
trace — no SMTP, HTTP-API or browser action, and no rate-limit sleep. -/
theorem claim_C4 (env env2 : Env) (st st2 : SvcState) (e : Email) (m m2 : String)
    (d1 : ResponseDict) (st1 : SvcState) (ev1 : List Ev)
    (h : service_verify_email env st e m = .ok (d1, st1, ev1))
    (hlive : lookupEmail st2.result_cache e = lookupEmail st1.result_cache e) :
    ∃ d2 st3, service_verify_email env2 st2 e m2 = .ok (d2, st3, []) ∧
      d2.category = d1.category := by
  obtain ⟨r', hr', hcat⟩ := service_verify_caches env st e m d1 st1 ev1 h
  rw [hr'] at hlive
  have hmut : ∃ r'' : EmailVerificationResult, r'' =
      { r' with details := some (setAssoc (r'.details.getD []) "method" m2) } :=
    ⟨_, rfl⟩
  obtain ⟨r'', hr''⟩ := hmut
  refine ⟨toResponse r'' m2,
    { st2 with result_cache := setEmail st2.result_cache e r'' }, ?_, ?_⟩
  · rw [hr'']
    simp [service_verify_email, hlive]
  · rw [hr'']
    exact hcat

/-- The result object after the first witness call mutates `details`. -/
def rC4m : EmailVerificationResult :=
  { rC9 with details := some [("method", "auto")] }

/-- The service state after the first witness call. -/
def stC4b : SvcState := { result_cache := [(Email.mk "u" "x.com", rC4m)] }

/-- Witness for C4: a first call that returns "valid", immediately
re-run, returns "valid" again with no probe events. -/
theorem claim_C4_witness :
    ∃ d2 st3, service_verify_email {} stC4b (Email.mk "u" "x.com") "auto" =
        .ok (d2, st3, []) ∧
      d2.category = (toResponse rC4m "auto").category :=
  claim_C4 {} {} stC9 stC4b (Email.mk "u" "x.com") "auto" "auto"
    (toResponse rC4m "auto") stC4b [] (by rfl) (by rfl)

/-!
## Claim C2 — pre-check order of `verify`
-/

/-- C2.  For a call of the exposed `verify` (the service `verify_email`),
the pre-checks fire in the stated order, and the first that fires
determines the returned result with an empty probe trace: (a) the Result
Cache (the service's in-memory + on-disk cache); then — on the engine,
reached unless the call routes to the missing bounce-verifier method —
(b) the per-verdict persisted data files, returning that verdict with
provider "cached"; (b') the engine's auxiliary in-memory cache; (c)
syntactic validation → INVALID "Invalid email format"; (d) the blacklist
→ INVALID "Domain is blacklisted"; (e) the whitelist (`skip_domains`) →
VALID "Domain in whitelist". -/
theorem claim_C2 (env : Env) (st : SvcState) (e : Email) (m : String) :
    (∀ r, lookupEmail st.result_cache e = some r →
      ∃ d st', service_verify_email env st e m = .ok (d, st', []) ∧
        d.category = r.category) ∧
    (lookupEmail st.result_cache e = none →
      (m ≠ "smtp" ∨ st.smtp_verifier = false) →
      (∀ cat, check_email_in_data st.engine.data e = (true, some cat) →
        ∃ d st', service_verify_email env st e m = .ok (d, st', []) ∧
          d.category = cat ∧ d.provider = "cached" ∧
          d.reason = "Email found in " ++ cat ++ " list") ∧
      (check_email_in_data st.engine.data e = (false, none) →
        (∀ r, lookupEmail st.engine.result_cache e = some r →
          ∃ d st', service_verify_email env st e m = .ok (d, st', []) ∧
            d.category = r.category) ∧
        (lookupEmail st.engine.result_cache e = none →
          (validate_format e = false →
            ∃ d st', service_verify_email env st e m = .ok (d, st', []) ∧
              d.category = INVALID ∧ d.reason = "Invalid email format") ∧
          (validate_format e = true →
            (env.blacklist.contains e.domain = true →
              ∃ d st', service_verify_email env st e m = .ok (d, st', []) ∧
                d.category = INVALID ∧ d.reason = "Domain is blacklisted") ∧
            (env.blacklist.contains e.domain = false →
              env.skip_domains.contains e.domain = true →
              ∃ d st', service_verify_email env st e m = .ok (d, st', []) ∧
                d.category = VALID ∧ d.reason = "Domain in whitelist"))))) := by
  constructor
  · intro r hr
    simp only [service_verify_email, hr]
    exact ⟨_, _, rfl, rfl⟩
  · intro hA hroute
    have hif : (decide (m = "smtp") && st.smtp_verifier) = false := by
      rcases hroute with h | h
      · simp [h]
      · simp [h]
    constructor
    · intro cat hB
      simp only [service_verify_email, hA, hif, verify_email, hB, Bool.false_eq_true,
        if_false]
      exact ⟨_, _, rfl, rfl, rfl, rfl⟩
    · intro hB
      constructor
      · intro r hC
        simp only [service_verify_email, hA, hif, verify_email, hB, hC,
          Bool.false_eq_true, if_false]
        exact ⟨_, _, rfl, rfl⟩
      · intro hC
        constructor
        · intro hval
          simp only [service_verify_email, hA, hif, verify_email, hB, hC, hval,
            Bool.false_eq_true, if_false, Bool.not_false, if_true]
          exact ⟨_, _, rfl, rfl, rfl⟩
        · intro hval
          constructor
          · intro hbl
            simp only [service_verify_email, hA, hif, verify_email, hB, hC, hval, hbl,
              Bool.false_eq_true, if_false, Bool.not_true, if_true]
            exact ⟨_, _, rfl, rfl, rfl⟩
          · intro hbl hwl
            simp only [service_verify_email, hA, hif, verify_email, hB, hC, hval, hbl,
              hwl, Bool.false_eq_true, if_false, Bool.not_true, if_true]
            exact ⟨_, _, rfl, rfl, rfl⟩

/-- Witness for C2: a whitelisted domain, absent from every cache and
data file, yields VALID "Domain in whitelist" with no probe events. -/
theorem claim_C2_witness :
    ∃ d st', service_verify_email { skip_domains := ["w.com"] } {}
        (Email.mk "a" "w.com") "auto" = .ok (d, st', []) ∧
      d.category = VALID ∧ d.reason = "Domain in whitelist" :=
  ((((((claim_C2 { skip_domains := ["w.com"] } {} (Email.mk "a" "w.com") "auto").2
    (by rfl) (Or.inl (by decide))).2 (by rfl)).2 (by rfl)).2 (by rfl)).2
    (by rfl)) (by rfl)

/-!
## Engine postconditions

Shared groundwork for the persistence (C5) and batch-completeness (C1)
claims: every result the engine produces carries one of the four
categories and is about the verified address, the persisted data files
change by at most one `add_email_to_data` per call, and the engine cache
changes by at most the one committed entry.
-/

/-- The four verdict strings. -/
def Cat4Str (s : String) : Prop :=
  s = VALID ∨ s = INVALID ∨ s = RISKY ∨ s = CUSTOM

theorem cat4_toStr (c : Cat4) : Cat4Str c.toStr := by
  cases c <;> simp [Cat4.toStr, Cat4Str]

/-- Postcondition of one strategy outcome: the result is for the verified
address with one of the four categories; the data files are unchanged or
gained that result via `add_email_to_data`; the engine cache is unchanged
or gained exactly the committed entry. -/
def StratPost (e : Email) (st : EngineState)
    (out : EmailVerificationResult × EngineState × List Ev) : Prop :=
  out.1.email = e ∧ Cat4Str out.1.category ∧
    (out.2.1.data = st.data ∨
      out.2.1.data = (add_email_to_data st.data e out.1.category).1) ∧
    (out.2.1.result_cache = st.result_cache ∨
      out.2.1.result_cache = setEmail st.result_cache e out.1)

theorem commit_post (st : EngineState) (r : EmailVerificationResult)
    (he : r.email = e) :
    (commit st r).data = (add_email_to_data st.data e r.category).1 ∧
      (commit st r).result_cache = setEmail st.result_cache e r := by
  subst he
  exact ⟨rfl, rfl⟩

theorem _verify_login_ok (env : Env) (st : EngineState) (e : Email)
    (p u b : String) (r : EmailVerificationResult) (st' : EngineState)
    (evs : List Ev) (h : _verify_login env st e p u b = (.ok r, st', evs)) :
    r.email = e ∧ Cat4Str r.category ∧ st'.data = st.data ∧
      st'.result_cache = st.result_cache := by
  unfold _verify_login at h
  cases hb : env.browserProbe e.addr u b with
  | raise m =>
    rw [hb] at h
    injection h with h1 h23
    exact Except.noConfusion h1
  | outcome cat reason =>
    rw [hb] at h
    injection h with h1 h23
    injection h23 with h2 h3
    injection h1 with h1'
    subst h1'
    subst h2
    exact ⟨rfl, cat4_toStr cat, rfl, rfl⟩

theorem verify_email_smtp_ok (env : Env) (st : EngineState) (e : Email) :
    (verify_email_smtp env st e).1.email = e ∧
      Cat4Str (verify_email_smtp env st e).1.category ∧
      (verify_email_smtp env st e).2.1.data = st.data ∧
      (verify_email_smtp env st e).2.1.result_cache = st.result_cache := by
  unfold verify_email_smtp
  dsimp only
  split
  · exact ⟨rfl, Or.inr (Or.inl rfl), rfl, rfl⟩
  · split
    · split
      · exact ⟨rfl, Or.inr (Or.inr (Or.inl rfl)), rfl, rfl⟩
      · exact ⟨rfl, Or.inl rfl, rfl, rfl⟩
    · split
      · exact ⟨rfl, Or.inr (Or.inr (Or.inl rfl)), rfl, rfl⟩
      · exact ⟨rfl, Or.inr (Or.inl rfl), rfl, rfl⟩

theorem verify_microsoft_api_ok (env : Env) (st : EngineState) (e : Email) :
    (∀ r, (verify_microsoft_api env st e).1 = some r →
      r.email = e ∧ (r.category = VALID ∨ r.category = INVALID)) ∧
      (verify_microsoft_api env st e).2.1.data = st.data ∧
      (verify_microsoft_api env st e).2.1.result_cache = st.result_cache := by
  unfold verify_microsoft_api
  split
  · exact ⟨fun r hr => Option.noConfusion hr, rfl, rfl⟩
  · split
    · exact ⟨fun r hr => Option.noConfusion hr, rfl, rfl⟩
    · exact ⟨fun r hr => Option.noConfusion hr, rfl, rfl⟩
    · split
      · split
        · refine ⟨fun r hr => ?_, rfl, rfl⟩
          cases Option.some.inj hr
          exact ⟨rfl, Or.inl rfl⟩
        · split
          · refine ⟨fun r hr => ?_, rfl, rfl⟩
            cases Option.some.inj hr
            exact ⟨rfl, Or.inr rfl⟩
          · split
            · exact ⟨fun r hr => Option.noConfusion hr, rfl, rfl⟩
            · exact ⟨fun r hr => Option.noConfusion hr, rfl, rfl⟩
      · exact ⟨fun r hr => Option.noConfusion hr, rfl, rfl⟩

theorem check_microsoft_api_catch_all_state (env : Env) (st : EngineState)
    (d : String) :
    (check_microsoft_api_catch_all env st d).2.1.data = st.data ∧
      (check_microsoft_api_catch_all env st d).2.1.result_cache =
        st.result_cache := by
  unfold check_microsoft_api_catch_all
  have h1 := verify_microsoft_api_ok env st (Email.mk "admin" d)
  have h2 := verify_microsoft_api_ok env
    (verify_microsoft_api env st (Email.mk "admin" d)).2.1
    (Email.mk env.randomLocal d)
  exact ⟨h2.2.1.trans h1.2.1, h2.2.2.trans h1.2.2⟩

/-- Shape of a finished browser loop relative to the state it started
from: an early return carries a four-category result for `e` committed on
top of the entry state; a fall-through leaves data and cache untouched
and its carried `result` variable, when bound, is a four-category result
for `e`. -/
def LoopPost (e : Email) (st : EngineState)
    (out : StratStep × EngineState × List Ev) : Prop :=
  match out.1 with
  | .ret r => r.email = e ∧ Cat4Str r.category ∧
      out.2.1.data = (add_email_to_data st.data e r.category).1 ∧
      out.2.1.result_cache = setEmail st.result_cache e r
  | .through l => out.2.1.data = st.data ∧
      out.2.1.result_cache = st.result_cache ∧
      (∀ r, l = some r → r.email = e ∧ Cat4Str r.category)

theorem ms_browser_loop_post (env : Env) (e : Email) (provider url : String)
    (all : List String) :
    ∀ bs st evs last out,
      (∀ r, last = some r → r.email = e ∧ Cat4Str r.category) →
      ms_browser_loop env e provider url all bs st evs last = .ok out →
      LoopPost e st out := by
  intro bs
  induction bs with
  | nil =>
    intro st evs last out hlast h
    simp only [ms_browser_loop] at h
    cases Except.ok.inj h
    exact ⟨rfl, rfl, hlast⟩
  | cons b rest ih =>
    intro st evs last out hlast h
    simp only [ms_browser_loop] at h
    rcases hlog : _verify_login env st e provider url b with ⟨ex, st1, evs1⟩
    rw [hlog] at h
    cases ex with
    | error m =>
      dsimp only at h
      exact Except.noConfusion h
    | ok result =>
      dsimp only at h
      obtain ⟨hre, hrc, hd1, hc1⟩ :=
        _verify_login_ok env st e provider url b result st1 evs1 hlog
      by_cases hdef : isDefinitive result = true
      · rw [if_pos hdef] at h
        cases Except.ok.inj h
        refine ⟨hre, hrc, ?_, ?_⟩
        · rw [(commit_post st1 result hre).1, hd1]
        · rw [(commit_post st1 result hre).2, hc1]
      · rw [if_neg hdef] at h
        by_cases hretry : ((result.category == RISKY && result.reason == noPromptReason)
            || (result.category == CUSTOM &&
                result.reason == "Redirected to custom login page")) = true
        · rw [if_pos hretry] at h
          rcases hlog2 : _verify_login env st1 e provider "https://login.live.com"
              (all.getD ((all.indexOf b + 1) % all.length) "") with ⟨ex2, st2, evs2⟩
          rw [hlog2] at h
          cases ex2 with
          | error m =>
            dsimp only at h
            exact Except.noConfusion h
          | ok direct =>
            dsimp only at h
            obtain ⟨hde, hdc, hd2, hc2⟩ :=
              _verify_login_ok env st1 e provider "https://login.live.com"
                (all.getD ((all.indexOf b + 1) % all.length) "") direct st2 evs2 hlog2
            by_cases hdef2 : isDefinitive direct = true
            · rw [if_pos hdef2] at h
              cases Except.ok.inj h
              refine ⟨hde, hdc, ?_, ?_⟩
              · rw [(commit_post st2 direct hde).1, hd2, hd1]
              · rw [(commit_post st2 direct hde).2, hc2, hc1]
            · rw [if_neg hdef2] at h
              by_cases hprom : (direct.category == RISKY &&
                  direct.reason == noPromptReason) = true
              · rw [if_pos hprom] at h
                cases Except.ok.inj h
                refine ⟨rfl, Or.inl rfl, ?_, ?_⟩
                · rw [(commit_post st2 _ rfl).1, hd2, hd1]
                · rw [(commit_post st2 _ rfl).2, hc2, hc1]
              · rw [if_neg hprom] at h
                have := ih st2 _ (some result) out (fun r hr => by
                  cases Option.some.inj hr
                  exact ⟨hre, hrc⟩) h
                cases hstep : out.1 with
                | ret r =>
                  simp only [LoopPost, hstep] at this ⊢
                  obtain ⟨h1, h2, h3, h4⟩ := this
                  exact ⟨h1, h2, by rw [h3, hd2, hd1], by rw [h4, hc2, hc1]⟩
                | through l =>
                  simp only [LoopPost, hstep] at this ⊢
                  obtain ⟨h1, h2, h3⟩ := this
                  exact ⟨by rw [h1, hd2, hd1], by rw [h2, hc2, hc1], h3⟩
        · rw [if_neg hretry] at h
          have := ih st1 _ (some result) out (fun r hr => by
            cases Option.some.inj hr
            exact ⟨hre, hrc⟩) h
          cases hstep : out.1 with
          | ret r =>
            simp only [LoopPost, hstep] at this ⊢
            obtain ⟨h1, h2, h3, h4⟩ := this
            exact ⟨h1, h2, by rw [h3, hd1], by rw [h4, hc1]⟩
          | through l =>
            simp only [LoopPost, hstep] at this ⊢
            obtain ⟨h1, h2, h3⟩ := this
            exact ⟨by rw [h1, hd1], by rw [h2, hc1], h3⟩

theorem google_browser_loop_post (env : Env) (e : Email) (provider url : String) :
    ∀ bs st evs last out,
      (∀ r, last = some r → r.email = e ∧ Cat4Str r.category) →
      google_browser_loop env e provider url bs st evs last = .ok out →
      LoopPost e st out := by
  intro bs
  induction bs with
  | nil =>
    intro st evs last out hlast h
    simp only [google_browser_loop] at h
    cases Except.ok.inj h
    exact ⟨rfl, rfl, hlast⟩
  | cons b rest ih =>
    intro st evs last out hlast h
    simp only [google_browser_loop] at h
    rcases hlog : _verify_login env st e provider url b with ⟨ex, st1, evs1⟩
    rw [hlog] at h
    cases ex with
    | error m =>
      dsimp only at h
      exact Except.noConfusion h
    | ok result =>
      dsimp only at h
      obtain ⟨hre, hrc, hd1, hc1⟩ :=
        _verify_login_ok env st e provider url b result st1 evs1 hlog
      by_cases hdef : isDefinitive result = true
      · rw [if_pos hdef] at h
        cases Except.ok.inj h
        refine ⟨hre, hrc, ?_, ?_⟩
        · rw [(commit_post st1 result hre).1, hd1]
        · rw [(commit_post st1 result hre).2, hc1]
      · rw [if_neg hdef] at h
        by_cases hprom : (result.category == RISKY &&
            result.reason == noPromptReason) = true
        · rw [if_pos hprom] at h
          cases Except.ok.inj h
          refine ⟨rfl, Or.inl rfl, ?_, ?_⟩
          · rw [(commit_post st1 _ rfl).1, hd1]
          · rw [(commit_post st1 _ rfl).2, hc1]
        · rw [if_neg hprom] at h
          have := ih st1 _ (some result) out (fun r hr => by
            cases Option.some.inj hr
            exact ⟨hre, hrc⟩) h
          cases hstep : out.1 with
          | ret r =>
            simp only [LoopPost, hstep] at this ⊢
            obtain ⟨h1, h2, h3, h4⟩ := this
            exact ⟨h1, h2, by rw [h3, hd1], by rw [h4, hc1]⟩
          | through l =>
            simp only [LoopPost, hstep] at this ⊢
            obtain ⟨h1, h2, h3⟩ := this
            exact ⟨by rw [h1, hd1], by rw [h2, hc1], h3⟩

theorem other_browser_loop_post (env : Env) (e : Email) (provider url : String)
    (all : List String) :
    ∀ bs st evs out,
      other_browser_loop env e provider url all bs st evs = .ok (some out) →
      out.1.email = e ∧ Cat4Str out.1.category ∧
        out.2.1.data = (add_email_to_data st.data e out.1.category).1 ∧
        out.2.1.result_cache = setEmail st.result_cache e out.1 := by
  intro bs
  induction bs with
  | nil =>
    intro st evs out h
    simp only [other_browser_loop] at h
    exact Option.noConfusion (Except.ok.inj h)
  | cons b rest ih =>
    intro st evs out h
    simp only [other_browser_loop] at h
    rcases hlog : _verify_login env st e provider url b with ⟨ex, st1, evs1⟩
    rw [hlog] at h
    cases ex with
    | error m =>
      dsimp only at h
      exact Except.noConfusion h
    | ok result =>
      dsimp only at h
      obtain ⟨hre, hrc, hd1, hc1⟩ :=
        _verify_login_ok env st e provider url b result st1 evs1 hlog
      by_cases hdef : isDefinitive result = true
      · rw [if_pos hdef] at h
        cases Option.some.inj (Except.ok.inj h)
        refine ⟨hre, hrc, ?_, ?_⟩
        · rw [(commit_post st1 result hre).1, hd1]
        · rw [(commit_post st1 result hre).2, hc1]
      · rw [if_neg hdef] at h
        by_cases hlastb : (some b == all.getLast? &&
            (result.category == RISKY || result.category == CUSTOM)) = true
        · rw [if_pos hlastb] at h
          obtain ⟨hse, hsc, hsd, hscache⟩ := verify_email_smtp_ok env st1 e
          by_cases hsmtp : isDefinitive (verify_email_smtp env st1 e).1 = true
          · rw [if_pos hsmtp] at h
            cases Option.some.inj (Except.ok.inj h)
            refine ⟨hse, hsc, ?_, ?_⟩
            · rw [(commit_post _ _ hse).1, hsd, hd1]
            · rw [(commit_post _ _ hse).2, hscache, hc1]
          · rw [if_neg hsmtp] at h
            cases Option.some.inj (Except.ok.inj h)
            refine ⟨hre, hrc, ?_, ?_⟩
            · rw [(commit_post _ _ hre).1, hsd, hd1]
            · rw [(commit_post _ _ hre).2, hscache, hc1]
        · rw [if_neg hlastb] at h
          have := ih st1 _ out h
          obtain ⟨h1, h2, h3, h4⟩ := this
          exact ⟨h1, h2, by rw [h3, hd1], by rw [h4, hc1]⟩

theorem _verify_custom_domain_email_post (env : Env) (st : EngineState)
    (e : Email) (d : String) (mxr : List String) (out)
    (h : _verify_custom_domain_email env st e d mxr = .ok out) :
    StratPost e st out := by
  unfold _verify_custom_domain_email at h
  cases Except.ok.inj h
  have hre : (if (verify_smtp env e.addr mxr).is_deliverable = true then
      if check_catch_all env d = true then
        ({ email := e, category := RISKY, reason := "Domain has catch-all configuration",
           provider := "Custom",
           details := some [("smtp_result", "smtp"), ("is_catch_all", "True")],
           timestamp := env.now } : EmailVerificationResult)
      else
        { email := e, category := VALID, reason := "Email verified via SMTP",
          provider := "Custom", details := some [("smtp_result", "smtp")],
          timestamp := env.now }
    else if (verify_smtp env e.addr mxr).reason = some "Mailbox unavailable" then
      { email := e, category := RISKY,
        reason := "Mailbox unavailable (may not indicate invalid email)",
        provider := "Custom", details := some [("smtp_result", "smtp")],
        timestamp := env.now }
    else
      { email := e, category := INVALID,
        reason := "Email verification failed: " ++
          ((verify_smtp env e.addr mxr).reason.getD "None"),
        provider := "Custom", details := some [("smtp_result", "smtp")],
        timestamp := env.now }).email = e := by
    split
    · split <;> rfl
    · split <;> rfl
  refine ⟨hre, ?_, Or.inr ((commit_post st _ hre).1), Or.inr ((commit_post st _ hre).2)⟩
  dsimp only
  split
  · split
    · exact Or.inr (Or.inr (Or.inl rfl))
    · exact Or.inl rfl
  · split
    · exact Or.inr (Or.inr (Or.inl rfl))
    · exact Or.inr (Or.inl rfl)

theorem _verify_other_provider_email_post (env : Env) (st : EngineState)
    (e : Email) (p u : String) (out)
    (h : _verify_other_provider_email env st e p u = .ok out) :
    StratPost e st out := by
  unfold _verify_other_provider_email at h
  by_cases hloop : env.verification_loop_enabled = true
  · rw [if_pos hloop] at h
    rcases hl : other_browser_loop env e p u env.browsers env.browsers st [] with m | oOpt
    · rw [hl] at h
      exact Except.noConfusion h
    · rw [hl] at h
      cases oOpt with
      | none =>
        dsimp only at h
        exact Except.noConfusion h
      | some o =>
        dsimp only at h
        obtain ⟨h1, h2, h3, h4⟩ :=
          other_browser_loop_post env e p u env.browsers env.browsers st [] o hl
        cases Except.ok.inj h
        exact ⟨h1, h2, Or.inr h3, Or.inr h4⟩
  · rw [if_neg hloop] at h
    cases hb : env.browsers with
    | nil =>
      rw [hb] at h
      exact Except.noConfusion h
    | cons b rest =>
      rw [hb] at h
      dsimp only at h
      rcases hlog : _verify_login env st e p u b with ⟨ex, st1, evs1⟩
      rw [hlog] at h
      cases ex with
      | error m =>
        dsimp only at h
        exact Except.noConfusion h
      | ok result =>
        dsimp only at h
        cases Except.ok.inj h
        obtain ⟨hre, hrc, hd1, hc1⟩ :=
          _verify_login_ok env st e p u b result st1 evs1 hlog
        refine ⟨hre, hrc, Or.inr ?_, Or.inr ?_⟩
        · rw [(commit_post st1 result hre).1, hd1]
        · rw [(commit_post st1 result hre).2, hc1]

theorem _verify_gmail_email_post (env : Env) (st : EngineState) (e : Email)
    (p u : String) (out)
    (h : _verify_gmail_email env st e p u = .ok out) :
    StratPost e st out := by
  unfold _verify_gmail_email at h
  obtain ⟨hse, hsc, hsd, hscc⟩ := verify_email_smtp_ok env st e
  by_cases hdefs : isDefinitive (verify_email_smtp env st e).1 = true
  · rw [if_pos hdefs] at h
    cases Except.ok.inj h
    refine ⟨hse, hsc, Or.inr ?_, Or.inr ?_⟩
    · rw [(commit_post _ _ hse).1, hsd]
    · rw [(commit_post _ _ hse).2, hscc]
  · rw [if_neg hdefs] at h
    rcases hl : google_browser_loop env e p u env.browsers
        (verify_email_smtp env st e).2.1 (verify_email_smtp env st e).2.2 none
      with m | ⟨step, stB, evsB⟩
    · rw [hl] at h
      exact Except.noConfusion h
    · rw [hl] at h
      have post := google_browser_loop_post env e p u env.browsers
        (verify_email_smtp env st e).2.1 (verify_email_smtp env st e).2.2 none
        (step, stB, evsB) (fun r hr => Option.noConfusion hr) hl
      cases step with
      | ret r =>
        try dsimp only at h
        cases Except.ok.inj h
        simp only [LoopPost] at post
        obtain ⟨h1, h2, h3, h4⟩ := post
        exact ⟨h1, h2, Or.inr (by rw [h3, hsd]), Or.inr (by rw [h4, hscc])⟩
      | through last =>
        try dsimp only at h
        simp only [LoopPost] at post
        obtain ⟨h1, h2, h3⟩ := post
        cases hlast : last with
        | some r =>
          rw [hlast] at h
          try dsimp only at h
          cases Except.ok.inj h
          obtain ⟨hrem, hrcat⟩ := h3 r hlast
          refine ⟨hrem, hrcat, Or.inr ?_, Or.inr ?_⟩
          · rw [(commit_post stB r hrem).1, h1, hsd]
          · rw [(commit_post stB r hrem).2, h2, hscc]
        | none =>
          rw [hlast] at h
          try dsimp only at h
          exact Except.noConfusion h

theorem _verify_custom_google_email_post (env : Env) (st : EngineState)
    (e : Email) (p u : String) (out)
    (h : _verify_custom_google_email env st e p u = .ok out) :
    StratPost e st out := by
  unfold _verify_custom_google_email at h
  rcases hl : google_browser_loop env e p u env.browsers st [] none
    with m | ⟨step, stB, evsB⟩
  · rw [hl] at h
    exact Except.noConfusion h
  · rw [hl] at h
    have post := google_browser_loop_post env e p u env.browsers st [] none
      (step, stB, evsB) (fun r hr => Option.noConfusion hr) hl
    cases step with
    | ret r =>
      try dsimp only at h
      cases Except.ok.inj h
      simp only [LoopPost] at post
      obtain ⟨h1, h2, h3, h4⟩ := post
      exact ⟨h1, h2, Or.inr h3, Or.inr h4⟩
    | through last =>
      try dsimp only at h
      simp only [LoopPost] at post
      obtain ⟨h1, h2, h3⟩ := post
      obtain ⟨hse, hsc, hsd, hscc⟩ := verify_email_smtp_ok env stB e
      by_cases hdefs : isDefinitive (verify_email_smtp env stB e).1 = true
      · rw [if_pos hdefs] at h
        cases Except.ok.inj h
        refine ⟨hse, hsc, Or.inr ?_, Or.inr ?_⟩
        · rw [(commit_post _ _ hse).1, hsd, h1]
        · rw [(commit_post _ _ hse).2, hscc, h2]
      · rw [if_neg hdefs] at h
        cases hlast : last with
        | some r =>
          rw [hlast] at h
          try dsimp only at h
          cases Except.ok.inj h
          obtain ⟨hrem, hrcat⟩ := h3 r hlast
          refine ⟨hrem, hrcat, Or.inr ?_, Or.inr ?_⟩
          · rw [(commit_post _ r hrem).1, hsd, h1]
          · rw [(commit_post _ r hrem).2, hscc, h2]
        | none =>
          rw [hlast] at h
          try dsimp only at h
          exact Except.noConfusion h

theorem _verify_microsoft_email_post (env : Env) (st : EngineState) (e : Email)
    (p u d : String) (out)
    (h : _verify_microsoft_email env st e p u d = .ok out) :
    StratPost e st out := by
  unfold _verify_microsoft_email at h
  rcases hc : (if env.microsoft_api = true then check_microsoft_api_catch_all env st d
      else (false, st, [])) with ⟨isCA, stA, evsA⟩
  have hA : stA.data = st.data ∧ stA.result_cache = st.result_cache := by
    by_cases hm : env.microsoft_api = true
    · rw [if_pos hm] at hc
      have hs := check_microsoft_api_catch_all_state env st d
      rw [hc] at hs
      exact hs
    · rw [if_neg hm] at hc
      injection hc with h1 h23
      injection h23 with h2 h3
      subst h2
      exact ⟨rfl, rfl⟩
  rw [hc] at h
  dsimp only at h
  cases isCA with
  | true =>
    simp only [Bool.not_true, Bool.false_eq_true, if_false] at h
    try dsimp only at h
    rcases hloop : ms_browser_loop env e p u env.browsers env.browsers stA evsA none
      with m | ⟨step, stB, evsB⟩
    · rw [hloop] at h
      exact Except.noConfusion h
    · rw [hloop] at h
      have post := ms_browser_loop_post env e p u env.browsers env.browsers stA evsA
        none (step, stB, evsB) (fun r hr => Option.noConfusion hr) hloop
      cases step with
      | ret r =>
        try dsimp only at h
        cases Except.ok.inj h
        simp only [LoopPost] at post
        obtain ⟨h1, h2, h3, h4⟩ := post
        exact ⟨h1, h2, Or.inr (by rw [h3, hA.1]), Or.inr (by rw [h4, hA.2])⟩
      | through last =>
        try dsimp only at h
        simp only [LoopPost] at post
        obtain ⟨h1, h2, h3⟩ := post
        obtain ⟨hse, hsc, hsd, hscc⟩ := verify_email_smtp_ok env stB e
        by_cases hdefs : isDefinitive (verify_email_smtp env stB e).1 = true
        · rw [if_pos hdefs] at h
          cases Except.ok.inj h
          refine ⟨hse, hsc, Or.inr ?_, Or.inr ?_⟩
          · rw [(commit_post _ _ hse).1, hsd, h1, hA.1]
          · rw [(commit_post _ _ hse).2, hscc, h2, hA.2]
        · rw [if_neg hdefs] at h
          cases hlast : last with
          | some r =>
            rw [hlast] at h
            try dsimp only at h
            cases Except.ok.inj h
            obtain ⟨hrem, hrcat⟩ := h3 r hlast
            refine ⟨hrem, hrcat, Or.inr ?_, Or.inr ?_⟩
            · rw [(commit_post _ r hrem).1, hsd, h1, hA.1]
            · rw [(commit_post _ r hrem).2, hscc, h2, hA.2]
          | none =>
            rw [hlast] at h
            try dsimp only at h
            exact Except.noConfusion h
  | false =>
    simp only [Bool.not_false, eq_self_iff_true, if_true] at h
    try dsimp only at h
    rcases hapi : verify_microsoft_api env stA e with ⟨apiOpt, stP, evsP⟩
    have hPI := verify_microsoft_api_ok env stA e
    rw [hapi] at hPI h
    dsimp only at hPI h
    have hPd : stP.data = st.data := by rw [hPI.2.1, hA.1]
    have hPc : stP.result_cache = st.result_cache := by rw [hPI.2.2, hA.2]
    have hloopCont : ∀ evsL,
        (match ms_browser_loop env e p u env.browsers env.browsers stP evsL none with
          | Except.error m => Except.error m
          | Except.ok (StratStep.ret r, stx, evsx) => Except.ok (r, stx, evsx)
          | Except.ok (StratStep.through last, stx, evsx) =>
            let s := verify_email_smtp env stx e
            let stx := s.2.1
            let evsx := evsx ++ s.2.2
            if isDefinitive s.1 = true then Except.ok (s.1, commit stx s.1, evsx)
            else
              match last with
              | some r => Except.ok (r, commit stx r, evsx)
              | none => Except.error "NameError: name result is not defined") =
          Except.ok out →
        StratPost e st out := by
      intro evsL hCont
      rcases hloop : ms_browser_loop env e p u env.browsers env.browsers stP evsL none
        with m | ⟨step, stB, evsB⟩
      · rw [hloop] at hCont
        exact Except.noConfusion hCont
      · rw [hloop] at hCont
        have post := ms_browser_loop_post env e p u env.browsers env.browsers stP evsL
          none (step, stB, evsB) (fun r hr => Option.noConfusion hr) hloop
        cases step with
        | ret r =>
          try dsimp only at hCont
          cases Except.ok.inj hCont
          simp only [LoopPost] at post
          obtain ⟨h1, h2, h3, h4⟩ := post
          exact ⟨h1, h2, Or.inr (by rw [h3, hPd]), Or.inr (by rw [h4, hPc])⟩
        | through last =>
          try dsimp only at hCont
          simp only [LoopPost] at post
          obtain ⟨h1, h2, h3⟩ := post
          obtain ⟨hse, hsc, hsd, hscc⟩ := verify_email_smtp_ok env stB e
          by_cases hdefs : isDefinitive (verify_email_smtp env stB e).1 = true
          · rw [if_pos hdefs] at hCont
            cases Except.ok.inj hCont
            refine ⟨hse, hsc, Or.inr ?_, Or.inr ?_⟩
            · rw [(commit_post _ _ hse).1, hsd, h1, hPd]
            · rw [(commit_post _ _ hse).2, hscc, h2, hPc]
          · rw [if_neg hdefs] at hCont
            cases hlast : last with
            | some r =>
              rw [hlast] at hCont
              try dsimp only at hCont
              cases Except.ok.inj hCont
              obtain ⟨hrem, hrcat⟩ := h3 r hlast
              refine ⟨hrem, hrcat, Or.inr ?_, Or.inr ?_⟩
              · rw [(commit_post _ r hrem).1, hsd, h1, hPd]
              · rw [(commit_post _ r hrem).2, hscc, h2, hPc]
            | none =>
              rw [hlast] at hCont
              try dsimp only at hCont
              exact Except.noConfusion hCont
    cases apiOpt with
    | some r =>
      dsimp only at h
      by_cases hdef : isDefinitive r = true
      · rw [if_pos hdef] at h
        try dsimp only at h
        cases Except.ok.inj h
        obtain ⟨hre, hcat⟩ := hPI.1 r rfl
        refine ⟨hre, ?_, Or.inr ?_, Or.inr ?_⟩
        · rcases hcat with hv | hi
          · exact Or.inl hv
          · exact Or.inr (Or.inl hi)
        · rw [(commit_post _ r hre).1, hPd]
        · rw [(commit_post _ r hre).2, hPc]
      · rw [if_neg hdef] at h
        try dsimp only at h
        exact hloopCont _ h
    | none =>
      dsimp only at h
      exact hloopCont _ h

theorem lookupEmail_mem {α : Type} (c : List (Email × α)) (e : Email) (v : α)
    (h : lookupEmail c e = some v) : (e, v) ∈ c := by
  induction c with
  | nil => simp [lookupEmail] at h
  | cons q rest ih =>
    obtain ⟨k, w⟩ := q
    simp only [lookupEmail] at h
    by_cases hq : k = e
    · subst hq
      rw [if_pos rfl] at h
      cases Option.some.inj h
      exact List.mem_cons_self _ _
    · rw [if_neg hq] at h
      exact List.mem_cons_of_mem _ (ih h)

theorem WF_setEmail (c : List (Email × EmailVerificationResult)) (e : Email)
    (r : EmailVerificationResult) (hc : ∀ p ∈ c, Cat4Str p.2.category)
    (hr : Cat4Str r.category) : ∀ p ∈ setEmail c e r, Cat4Str p.2.category := by
  induction c with
  | nil =>
    intro p hp
    simp only [setEmail, List.mem_singleton] at hp
    subst hp
    exact hr
  | cons q rest ih =>
    intro p hp
    simp only [setEmail] at hp
    by_cases hq : q.1 = e
    · rw [if_pos hq] at hp
      rcases List.mem_cons.mp hp with h' | h'
      · subst h'
        exact hr
      · exact hc p (List.mem_cons_of_mem q h')
    · rw [if_neg hq] at hp
      rcases List.mem_cons.mp hp with h' | h'
      · subst h'
        exact hc q (List.mem_cons_self q rest)
      · exact ih (fun p hp => hc p (List.mem_cons_of_mem q hp)) p h'

/-- `check_email_in_data` only ever answers `(true, some cat)` or
`(false, none)`. -/
theorem check_email_pairs (df : DataFiles) (a : Email) :
    (∃ c, check_email_in_data df a = (true, some c)) ∨
      check_email_in_data df a = (false, none) := by
  unfold check_email_in_data
  split_ifs <;> first | exact Or.inl ⟨_, rfl⟩ | exact Or.inr rfl

/-- A category reported by `check_email_in_data` is one of the four. -/
theorem check_email_in_data_cat (df : DataFiles) (a : Email) (b : Bool)
    (cat : String) (h : check_email_in_data df a = (b, some cat)) :
    Cat4Str cat := by
  unfold check_email_in_data at h
  split_ifs at h
  · injection h with h1 h2
    cases Option.some.inj h2
    exact Or.inl rfl
  · injection h with h1 h2
    cases Option.some.inj h2
    exact Or.inr (Or.inl rfl)
  · injection h with h1 h2
    cases Option.some.inj h2
    exact Or.inr (Or.inr (Or.inl rfl))
  · injection h with h1 h2
    cases Option.some.inj h2
    exact Or.inr (Or.inr (Or.inr rfl))
  · injection h with h1 h2
    exact Option.noConfusion h2

/-- Master postcondition of the engine `verify_email`: a successful call
returns one of the four categories (given a well-categorized cache);
the persisted data files are unchanged, or the address was in no file
beforehand and exactly its own row was added; and the cache stays
well-categorized. -/
theorem verify_email_post (env : Env) (st : EngineState) (e : Email) (out)
    (h : verify_email env st e = .ok out)
    (hwf : ∀ p ∈ st.result_cache, Cat4Str p.2.category) :
    Cat4Str out.1.category ∧
      (out.2.1.data = st.data ∨
        (check_email_in_data st.data e = (false, none) ∧
          out.2.1.data = (add_email_to_data st.data e out.1.category).1)) ∧
      (∀ p ∈ out.2.1.result_cache, Cat4Str p.2.category) := by
  unfold verify_email at h
  rcases check_email_pairs st.data e with ⟨cat, hB⟩ | hB
  · rw [hB] at h
    dsimp only at h
    cases Except.ok.inj h
    exact ⟨check_email_in_data_cat st.data e true cat hB, Or.inl rfl, hwf⟩
  · rw [hB] at h
    dsimp only at h
    ·
      have finish : StratPost e st out →
          Cat4Str out.1.category ∧
            (out.2.1.data = st.data ∨
              (check_email_in_data st.data e = (false, none) ∧
                out.2.1.data = (add_email_to_data st.data e out.1.category).1)) ∧
            (∀ p ∈ out.2.1.result_cache, Cat4Str p.2.category) := by
        rintro ⟨hem, hcat, hdata, hcache⟩
        refine ⟨hcat, ?_, ?_⟩
        · rcases hdata with h' | h'
          · exact Or.inl h'
          · exact Or.inr ⟨hB, h'⟩
        · rcases hcache with h' | h'
          · rw [h']
            exact hwf
          · rw [h']
            exact WF_setEmail st.result_cache e out.1 hwf hcat
      cases hC : lookupEmail st.result_cache e with
      | some r =>
        rw [hC] at h
        dsimp only at h
        cases Except.ok.inj h
        exact ⟨hwf (e, r) (lookupEmail_mem _ _ _ hC), Or.inl rfl, hwf⟩
      | none =>
        rw [hC] at h
        dsimp only at h
        by_cases hval : validate_format e = true
        · simp only [hval, Bool.not_true, Bool.false_eq_true, if_false] at h
          by_cases hbl : env.blacklist.contains e.domain = true
          · rw [if_pos hbl] at h
            cases Except.ok.inj h
            exact finish ⟨rfl, Or.inr (Or.inl rfl),
              Or.inr (commit_post st _ rfl).1, Or.inr (commit_post st _ rfl).2⟩
          · rw [if_neg hbl] at h
            by_cases hwl : env.skip_domains.contains e.domain = true
            · rw [if_pos hwl] at h
              cases Except.ok.inj h
              exact finish ⟨rfl, Or.inl rfl,
                Or.inr (commit_post st _ rfl).1, Or.inr (commit_post st _ rfl).2⟩
            · rw [if_neg hwl] at h
              by_cases hmx : get_mx_records env e.domain = []
              · rw [if_pos hmx] at h
                cases Except.ok.inj h
                exact finish ⟨rfl, Or.inr (Or.inl rfl),
                  Or.inr (commit_post st _ rfl).1, Or.inr (commit_post st _ rfl).2⟩
              · rw [if_neg hmx] at h
                by_cases hms : (["outlook.com", "hotmail.com", "live.com",
                    "microsoft.com", "office365.com"].contains
                    (identify_provider env e).1) = true
                · rw [if_pos hms] at h
                  exact finish (_verify_microsoft_email_post env st e _ _ _ out h)
                · rw [if_neg hms] at h
                  by_cases hgm : (identify_provider env e).1 = "gmail.com"
                  · rw [if_pos hgm] at h
                    exact finish (_verify_gmail_email_post env st e _ _ out h)
                  · rw [if_neg hgm] at h
                    by_cases hcg : (identify_provider env e).1 = "customGoogle"
                    · rw [if_pos hcg] at h
                      exact finish (_verify_custom_google_email_post env st e _ _ out h)
                    · rw [if_neg hcg] at h
                      by_cases hcu : (decide ((identify_provider env e).1 = "custom") ||
                          decide ((identify_provider env e).2 = none)) = true
                      · rw [if_pos hcu] at h
                        exact finish (_verify_custom_domain_email_post env st e _ _ out h)
                      · rw [if_neg hcu] at h
                        exact finish (_verify_other_provider_email_post env st e _ _ out h)
        · have hvalf : validate_format e = false := by
            revert hval
            cases validate_format e <;> simp
          simp only [hvalf, Bool.not_false, if_true] at h
          cases Except.ok.inj h
          exact finish ⟨rfl, Or.inr (Or.inl rfl),
            Or.inr (commit_post st _ rfl).1, Or.inr (commit_post st _ rfl).2⟩

/-!
## Claim C5 — idempotent persistence
-/

/-- Number of rows for an address in one category file. -/
def countEmail (l : List Email) (a : Email) : Nat :=
  (l.filter (fun x => x = a)).length

/-- Total number of rows for an address across the four per-category data
files. -/
def rowCount (df : DataFiles) (a : Email) : Nat :=
  countEmail df.valid a + countEmail df.invalid a +
    countEmail df.risky a + countEmail df.custom a

theorem countEmail_append (l1 l2 : List Email) (a : Email) :
    countEmail (l1 ++ l2) a = countEmail l1 a + countEmail l2 a := by
  simp [countEmail, List.filter_append]

theorem contains_false_countEmail (l : List Email) (a : Email)
    (h : l.contains a = false) : countEmail l a = 0 := by
  induction l with
  | nil => rfl
  | cons b rest ih =>
    simp only [List.contains_cons, Bool.or_eq_false_iff] at h
    obtain ⟨h1, h2⟩ := h
    have hba : ¬ b = a := by
      intro hh
      subst hh
      simp at h1
    simp only [countEmail, List.filter_cons]
    rw [if_neg (by simpa using hba)]
    exact ih h2

/-- A `(false, none)` answer of `check_email_in_data` means every
category file misses the address. -/
theorem check_false_contains (df : DataFiles) (a : Email)
    (h : check_email_in_data df a = (false, none)) :
    df.valid.contains a = false ∧ df.invalid.contains a = false ∧
      df.risky.contains a = false ∧ df.custom.contains a = false := by
  unfold check_email_in_data at h
  split_ifs at h with h1 h2 h3 h4
  · injection h with hb
    exact Bool.noConfusion hb
  · injection h with hb
    exact Bool.noConfusion hb
  · injection h with hb
    exact Bool.noConfusion hb
  · injection h with hb
    exact Bool.noConfusion hb
  · exact ⟨by simpa using h1, by simpa using h2, by simpa using h3, by simpa using h4⟩

theorem check_false_rowCount (df : DataFiles) (a : Email)
    (h : check_email_in_data df a = (false, none)) : rowCount df a = 0 := by
  obtain ⟨h1, h2, h3, h4⟩ := check_false_contains df a h
  simp [rowCount, contains_false_countEmail _ _ h1, contains_false_countEmail _ _ h2,
    contains_false_countEmail _ _ h3, contains_false_countEmail _ _ h4]

theorem countEmail_singleton (a : Email) : countEmail [a] a = 1 := by
  simp [countEmail]

/-- Adding an address that is in no file leaves at most one row for it. -/
theorem add_rowCount_le_one (df : DataFiles) (a : Email) (c : String)
    (h : check_email_in_data df a = (false, none)) :
    rowCount ((add_email_to_data df a c).1) a ≤ 1 := by
  have h0 := check_false_rowCount df a h
  simp only [rowCount] at h0
  unfold add_email_to_data
  split_ifs <;>
    simp only [rowCount, countEmail_append, countEmail_singleton] <;>
    omega

/-- One service `verify` call: verdicts are four-categoried, both caches
stay well-categorized, the data files change by at most the verified
address's own row (only when it was in no file), and an address already
present in some file is never re-written. -/
theorem service_verify_post (env : Env) (st : SvcState) (e : Email) (m : String)
    (hwfE : ∀ p ∈ st.engine.result_cache, Cat4Str p.2.category)
    (hwfS : ∀ p ∈ st.result_cache, Cat4Str p.2.category) :
    ∀ d st1 ev1, service_verify_email env st e m = .ok (d, st1, ev1) →
      Cat4Str d.category ∧
        (∀ p ∈ st1.engine.result_cache, Cat4Str p.2.category) ∧
        (∀ p ∈ st1.result_cache, Cat4Str p.2.category) ∧
        (st1.engine.data = st.engine.data ∨
          (check_email_in_data st.engine.data e = (false, none) ∧
            ∃ c, st1.engine.data = (add_email_to_data st.engine.data e c).1)) := by
  intro d st1 ev1 h
  cases hc : lookupEmail st.result_cache e with
  | some r =>
    simp only [service_verify_email, hc, Except.ok.injEq, Prod.mk.injEq] at h
    obtain ⟨h1, h2, -⟩ := h
    subst h1 h2
    have hrc : Cat4Str r.category := hwfS (e, r) (lookupEmail_mem _ _ _ hc)
    exact ⟨hrc, hwfE, WF_setEmail st.result_cache e _ hwfS hrc, Or.inl rfl⟩
  | none =>
    simp only [service_verify_email, hc] at h
    split at h
    · cases h
    · cases hv : verify_email env st.engine e with
      | error msg =>
        rw [hv] at h
        cases h
      | ok t =>
        obtain ⟨r, est, evs⟩ := t
        obtain ⟨hcat, hdata, hwfE'⟩ := verify_email_post env st.engine e (r, est, evs) hv hwfE
        rw [hv] at h
        simp only [Except.ok.injEq, Prod.mk.injEq] at h
        obtain ⟨h1, h2, -⟩ := h
        subst h1 h2
        refine ⟨hcat, ?_, ?_, ?_⟩
        · dsimp only [_add_to_cache]
          split
          · intro p hp
            exact WF_setEmail est.result_cache e _ hwfE'
              (by exact hcat) p hp
          · exact hwfE'
        · dsimp only [_add_to_cache]
          intro p hp
          refine WF_setEmail _ e _ ?_ (by exact hcat) p hp
          intro p' hp'
          split at hp'
          · exact hwfS p' (List.mem_of_mem_drop hp')
          · exact hwfS p' hp'
        · dsimp only [_add_to_cache]
          rcases hdata with h' | ⟨hchk, h'⟩
          · exact Or.inl (by split <;> exact h')
          · exact Or.inr ⟨hchk, r.category, by split <;> exact h'⟩

/-- Running the exposed `verify` N times on the same address. -/
def runServiceN (env : Env) (m : String) (e : Email) : Nat → SvcState → SvcState
  | 0, st => st
  | n + 1, st =>
    match service_verify_email env st e m with
    | .ok x => runServiceN env m e n x.2.1
    | .error _ => runServiceN env m e n st

/-- C5.  Starting from a state with at most one row for `a` across the
four per-category data files (and well-categorized caches), running
`verify(a)` any number of times leaves at most one row for `a`; moreover
a single call never writes when `a` is already present in any category
file. -/
theorem claim_C5 (env : Env) (e : Email) (m : String) (N : Nat) (st : SvcState)
    (hrow : rowCount st.engine.data e ≤ 1)
    (hwfE : ∀ p ∈ st.engine.result_cache, Cat4Str p.2.category)
    (hwfS : ∀ p ∈ st.result_cache, Cat4Str p.2.category) :
    rowCount ((runServiceN env m e N st).engine.data) e ≤ 1 ∧
      ((check_email_in_data st.engine.data e).1 = true →
        ∀ d st1 ev1, service_verify_email env st e m = .ok (d, st1, ev1) →
          st1.engine.data = st.engine.data) := by
  constructor
  · induction N generalizing st with
    | zero => exact hrow
    | succ n ih =>
      simp only [runServiceN]
      cases hcall : service_verify_email env st e m with
      | error msg => exact ih st hrow hwfE hwfS
      | ok x =>
        obtain ⟨d, st1, ev1⟩ := x
        obtain ⟨-, hwfE', hwfS', hdata⟩ :=
          service_verify_post env st e m hwfE hwfS d st1 ev1 hcall
        rcases hdata with h' | ⟨hchk, c, h'⟩
        · exact ih st1 (h' ▸ hrow) hwfE' hwfS'
        · exact ih st1 (h' ▸ add_rowCount_le_one st.engine.data e c hchk) hwfE' hwfS'
  · intro hpresent d st1 ev1 hcall
    obtain ⟨-, -, -, hdata⟩ :=
      service_verify_post env st e m hwfE hwfS d st1 ev1 hcall
    rcases hdata with h' | ⟨hchk, -, -⟩
    · exact h'
    · rw [hchk] at hpresent
      exact Bool.noConfusion hpresent

/-- Witness for C5: verifying a fresh malformed address twice leaves one
row, and an address already filed as invalid is not re-written. -/
theorem claim_C5_witness :
    rowCount ((runServiceN {} "auto" (Email.mk "" "x") 2 {}).engine.data)
        (Email.mk "" "x") ≤ 1 ∧
      ((check_email_in_data ({} : SvcState).engine.data (Email.mk "" "x")).1 = true →
        ∀ d st1 ev1,
          service_verify_email {} {} (Email.mk "" "x") "auto" = .ok (d, st1, ev1) →
          st1.engine.data = ({} : SvcState).engine.data) :=
  claim_C5 {} (Email.mk "" "x") "auto" 2 {} (by decide)
    (fun p hp => absurd hp (List.not_mem_nil p))
    (fun p hp => absurd hp (List.not_mem_nil p))

/-!
## Claim C1 — batch error handling and completeness
-/

/-- The worker queue extends its accumulator. -/
theorem process_worker_loop_append (env : Env) :
    ∀ emails (st : EngineState) q,
      ∃ q', (process_worker_loop env emails st q).1 = q ++ q' := by
  intro emails
  induction emails with
  | nil =>
    intro st q
    exact ⟨[], by simp [process_worker_loop]⟩
  | cons e rest ih =>
    intro st q
    simp only [process_worker_loop]
    cases hv : verify_email env st e with
    | ok x =>
      obtain ⟨r, st', evs⟩ := x
      dsimp only
      obtain ⟨q', hq'⟩ := ih st' (q ++ [(e, to_dict r)])
      exact ⟨[(e, to_dict r)] ++ q', by rw [hq', List.append_assoc]⟩
    | error m =>
      dsimp only
      obtain ⟨q', hq'⟩ := ih st (q ++ [(e,
        { email := e, category := RISKY, reason := "Verification error: " ++ m,
          provider := "unknown", details := some [("error", m)],
          timestamp := env.now })])
      exact ⟨[(e,
        { email := e, category := RISKY, reason := "Verification error: " ++ m,
          provider := "unknown", details := some [("error", m)],
          timestamp := env.now })] ++ q', by rw [hq', List.append_assoc]⟩

/-- The worker queue lists the verified addresses in order, and every
entry carries one of the four categories. -/
theorem process_worker_loop_cat (env : Env) :
    ∀ emails (st : EngineState) q,
      (∀ p ∈ st.result_cache, Cat4Str p.2.category) →
      (∀ p ∈ q, Cat4Str p.2.category) →
      ((process_worker_loop env emails st q).1.map Prod.fst =
        q.map Prod.fst ++ emails) ∧
      (∀ p ∈ (process_worker_loop env emails st q).1, Cat4Str p.2.category) := by
  intro emails
  induction emails with
  | nil =>
    intro st q hwf hq
    exact ⟨by simp [process_worker_loop], hq⟩
  | cons e rest ih =>
    intro st q hwf hq
    simp only [process_worker_loop]
    cases hv : verify_email env st e with
    | ok x =>
      obtain ⟨r, st', evs⟩ := x
      dsimp only
      obtain ⟨hcat, -, hwf'⟩ := verify_email_post env st e (r, st', evs) hv hwf
      have hq' : ∀ p ∈ q ++ [(e, to_dict r)], Cat4Str p.2.category := by
        intro p hp
        rcases List.mem_append.mp hp with h' | h'
        · exact hq p h'
        · rw [List.mem_singleton] at h'
          subst h'
          exact hcat
      obtain ⟨hmap, hfin⟩ := ih st' (q ++ [(e, to_dict r)]) hwf' hq'
      refine ⟨?_, hfin⟩
      rw [hmap, List.map_append]
      simp
    | error m =>
      dsimp only
      have hq' : ∀ p ∈ q ++ [(e,
          ({ email := e, category := RISKY, reason := "Verification error: " ++ m,
             provider := "unknown", details := some [("error", m)],
             timestamp := env.now } : WorkerDict))], Cat4Str p.2.category := by
        intro p hp
        rcases List.mem_append.mp hp with h' | h'
        · exact hq p h'
        · rw [List.mem_singleton] at h'
          subst h'
          exact Or.inr (Or.inr (Or.inl rfl))
      obtain ⟨hmap, hfin⟩ := ih st _ hwf hq'
      refine ⟨?_, hfin⟩
      rw [hmap, List.map_append]
      simp

/-- The batch loop processes every address and counts each one. -/
theorem background_loop_spec (env : Env) (method : String) :
    ∀ emails (st : SvcState) results completed,
      ((background_loop env method emails st results completed).2.2 =
        completed + emails.length) ∧
      (∀ a : Email, ((lookupEmail results a).isSome ∨ a ∈ emails) →
        (lookupEmail (background_loop env method emails st results completed).2.1
          a).isSome) := by
  intro emails
  induction emails with
  | nil =>
    intro st results completed
    refine ⟨by simp [background_loop], ?_⟩
    intro a ha
    rcases ha with h' | h'
    · simpa [background_loop] using h'
    · exact absurd h' (List.not_mem_nil a)
  | cons e rest ih =>
    intro st results completed
    simp only [background_loop]
    cases hv : service_verify_email env st e method with
    | ok x =>
      obtain ⟨d, st1, ev1⟩ := x
      dsimp only
      obtain ⟨hcount, hsome⟩ := ih st1 (setEmail results e d) (completed + 1)
      refine ⟨by rw [hcount]; simp [List.length_cons]; omega, ?_⟩
      intro a ha
      apply hsome
      rcases ha with h' | h'
      · exact Or.inl (lookupEmail_setEmail_isSome results e a d h')
      · rcases List.mem_cons.mp h' with h'' | h''
        · subst h''
          exact Or.inl (by rw [lookupEmail_setEmail_self]; rfl)
        · exact Or.inr h''
    | error m =>
      dsimp only
      obtain ⟨hcount, hsome⟩ :=
        ih st (setEmail results e (errorResponse e m method)) (completed + 1)
      refine ⟨by rw [hcount]; simp [List.length_cons]; omega, ?_⟩
      intro a ha
      apply hsome
      rcases ha with h' | h'
      · exact Or.inl (lookupEmail_setEmail_isSome results e a _ h')
      · rcases List.mem_cons.mp h' with h'' | h''
        · subst h''
          exact Or.inl (by rw [lookupEmail_setEmail_self]; rfl)
        · exact Or.inr h''

/-- C1 counterexample.  A batch started through the service with method
"smtp" and a configured bounce verifier raises (that class has no
`verify_email`): the task still completes and the address still receives
a result, but its category is the literal string "error" — not RISKY —
and its reason is the raw exception text, not
"Verification error: <msg>". -/
theorem claim_C1_counterexample :
    ((_background_verification {} { smtp_verifier := true }
        [Email.mk "x" "y.com"] "smtp" 0).1.status = "completed") ∧
      ((lookupEmail (_background_verification {} { smtp_verifier := true }
          [Email.mk "x" "y.com"] "smtp" 0).1.results (Email.mk "x" "y.com")).map
        (fun d => (d.category, d.reason)) =
        some ("error",
          "AttributeError: EmailBounceVerifier has no attribute verify_email")) ∧
      ¬ Cat4Str "error" := by
  refine ⟨rfl, rfl, ?_⟩
  rintro (h | h | h | h) <;> exact absurd h (by decide)

/-- C1 (amended).  The engine's process workers report a raising address
as RISKY with reason "Verification error: <msg>" and continue, and every
worker queue maps each address, in order, to a verdict among
VALID/INVALID/RISKY/CUSTOM.  The service-level batch
(`_background_verification`) also completes and gives every address a
result, but records a raising address with category "error" and the raw
exception text. -/
theorem claim_C1 (env : Env) (st : EngineState) (emails : List Email)
    (hwf : ∀ p ∈ st.result_cache, Cat4Str p.2.category) :
    ((_process_worker env st emails).1.map Prod.fst = emails) ∧
      (∀ p ∈ (_process_worker env st emails).1, Cat4Str p.2.category) ∧
      (∀ e m', verify_email env st e = .error m' →
        (_process_worker env st (e :: emails)).1.head? =
          some (e, { email := e, category := RISKY,
                     reason := "Verification error: " ++ m',
                     provider := "unknown", details := some [("error", m')],
                     timestamp := env.now })) ∧
      (∀ stsvc : SvcState, ∀ method : String, ∀ t0 : Int,
        (_background_verification env stsvc emails method t0).1.status = "completed" ∧
        (_background_verification env stsvc emails method t0).1.total =
          emails.length ∧
        (_background_verification env stsvc emails method t0).1.completed =
          emails.length ∧
        ∀ e ∈ emails, ∃ d,
          lookupEmail (_background_verification env stsvc emails method t0).1.results
            e = some d) ∧
      (∀ stsvc : SvcState, ∀ e m' method, ∀ t0 : Int,
        service_verify_email env stsvc e method = .error m' →
        lookupEmail (_background_verification env stsvc [e] method t0).1.results e =
          some (errorResponse e m' method)) := by
  obtain ⟨hmap, hcats⟩ := process_worker_loop_cat env emails st [] hwf
    (fun p hp => absurd hp (List.not_mem_nil p))
  refine ⟨by simpa [_process_worker] using hmap,
          by simpa [_process_worker] using hcats, ?_, ?_, ?_⟩
  · intro e m' hv
    simp only [_process_worker, process_worker_loop, hv]
    obtain ⟨q', hq'⟩ := process_worker_loop_append env emails st [(e,
      { email := e, category := RISKY, reason := "Verification error: " ++ m',
        provider := "unknown", details := some [("error", m')],
        timestamp := env.now })]
    rw [List.nil_append, hq']
    rfl
  · intro stsvc method t0
    obtain ⟨hcount, hsome⟩ := background_loop_spec env method emails stsvc [] 0
    refine ⟨rfl, rfl, by simpa [_background_verification] using hcount, ?_⟩
    intro e he
    have := hsome e (Or.inr he)
    simp only [_background_verification]
    obtain ⟨d, hd⟩ := Option.isSome_iff_exists.mp this
    exact ⟨d, hd⟩
  · intro stsvc e m' method t0 hv
    simp only [_background_verification, background_loop, hv]
    simp [background_loop, lookupEmail, setEmail]

/-- Environment for the C1 witness: a Yahoo-hosted address with no
configured browsers and the verification loop disabled, so the engine's
other-provider strategy raises an IndexError. -/
def envC1 : Env :=
  { verification_loop_enabled := false, browsers := [],
    mx := fun _ => ["mx1.mail.yahoo.com"] }

/-- Witness for C1: a worker batch over one address whose verification
raises yields the RISKY "Verification error" entry, in order, with a
four-category verdict. -/
theorem claim_C1_witness :
    ((_process_worker envC1 {} [Email.mk "a" "b.com"]).1.map Prod.fst =
      [Email.mk "a" "b.com"]) ∧
      (∀ p ∈ (_process_worker envC1 {} [Email.mk "a" "b.com"]).1,
        Cat4Str p.2.category) ∧
      ((_process_worker envC1 {}
          (Email.mk "a" "b.com" :: [Email.mk "a" "b.com"])).1.head? =
        some (Email.mk "a" "b.com",
          { email := Email.mk "a" "b.com", category := RISKY,
            reason := "Verification error: " ++ "IndexError: list index out of range",
            provider := "unknown",
            details := some [("error", "IndexError: list index out of range")],
            timestamp := 0 })) := by
  have h := claim_C1 envC1 {} [Email.mk "a" "b.com"]
    (fun p hp => absurd hp (List.not_mem_nil p))
  exact ⟨h.1, h.2.1, h.2.2.1 (Email.mk "a" "b.com")
    "IndexError: list index out of range" (by rfl)⟩

/-- Witness for C10: an unknown id returns `none`, and a completed task
with `total = 0` reports progress 0. -/
theorem claim_C10_witness :
    get_task_status [] "nope" = none ∧
      ∃ s, get_task_status [("t1", { status := "completed", total := 0, completed := 0 })] "t1" = some s ∧
        s.completed = 0 ∧ s.progress = 0 := by
  refine ⟨(claim_C10 [] "nope").1 rfl, ?_⟩
  obtain ⟨s, hs, hc, hp⟩ :=
    (claim_C10 [("t1", { status := "completed", total := 0, completed := 0 })] "t1").2
      { status := "completed", total := 0, completed := 0 } rfl
  exact ⟨s, hs, hc, hp rfl⟩

end EmailVerifier
